import Mathlib

/-!
Verification of the Clarity flat-file record store and time-aggregation engine.

The definitions below are shallow embeddings of the TypeScript source:
  - src/src/database/csvDb.ts        (CsvDatabase: writeCSV, getNextId, todos CRUD)
  - src/src/database/timerDatabase.ts (TimerDatabase: upserts, aggregation, hide/delete)
  - src/main/store.ts                 (daily stats, subject totals, sessions)
  - src/main/timeUtils.ts             (localDateString, pad)
  - src/main/notifications.ts         (reminder checker tick)
File-system effects are modelled by explicit state passing; thrown JS exceptions
become an explicit Boolean / Except-style error channel that preserves whatever
state had already been mutated before the throw, exactly as in the source.
-/

namespace Clarity

/-! ## Atomic write model (CsvDatabase.writeCSV / TimerDatabase.writeCSV)

One table's on-disk neighbourhood: the primary file, its sibling backup file
(primary + ".bak") and temporary file (primary + ".tmp").  A value of none
means the file does not exist. -/

structure FS where
  primary : Option String
  backup : Option String
  temp : Option String
deriving DecidableEq, Repr

/-- Injected failure point for the two renameSync calls inside the try block.
The temp write itself is assumed to succeed (the spec claim is about failures
after the temp write). -/
inductive FailPoint where
  | noFail
  | atBackupRename
  | atFinalRename
deriving DecidableEq, Repr

/-- The catch handler of writeCSV: if a backup file exists, rename it over the
primary path (fs.renameSync(backupFilePath, filePath)). -/
def restoreBackup (fs : FS) : FS :=
  match fs.backup with
  | some b => { fs with primary := some b, backup := none }
  | none => fs

/-- Shallow embedding of writeCSV: write the serialized rows to the temp path,
rename the primary to the backup path when the primary exists, rename the temp
into place.  On an injected rename failure the catch handler runs (restore the
backup if one exists on disk) and the error is rethrown; the Bool component
records whether the call threw.  A failure injected at the backup rename only
triggers when that rename actually executes (i.e. the primary exists). -/
def writeCSV (fs : FS) (content : String) (fp : FailPoint) : FS × Bool :=
  match fp, fs.primary with
  | FailPoint.atBackupRename, some p =>
    -- temp written; renameSync(filePath, backupFilePath) throws with both
    -- files unmoved; the catch handler runs and the error is rethrown
    (restoreBackup (FS.mk (some p) fs.backup (some content)), true)
  | FailPoint.atBackupRename, none =>
    -- the backup rename is skipped (existsSync is false), so the injected
    -- failure never triggers and the final rename succeeds
    (FS.mk (some content) fs.backup none, false)
  | FailPoint.atFinalRename, some p =>
    -- temp written; primary renamed to backup; the final rename throws;
    -- the catch handler runs and the error is rethrown
    (restoreBackup (FS.mk none (some p) (some content)), true)
  | FailPoint.atFinalRename, none =>
    (restoreBackup (FS.mk none fs.backup (some content)), true)
  | FailPoint.noFail, some p =>
    (FS.mk (some content) (some p) none, false)
  | FailPoint.noFail, none =>
    (FS.mk (some content) fs.backup none, false)

/-! ## Record identifiers (CsvDatabase.getNextId, addTodo, deleteTodo) -/

structure Todo where
  id : Nat
  date : String
  txt : String
  done : Nat
  starred : Nat
  due_date : Option String
  created_at : String
deriving DecidableEq, Repr

/-- Payload of an insert: a Todo without its id (Omit<Todo, "id">). -/
structure TodoInput where
  date : String
  txt : String
  done : Nat
  starred : Nat
  due_date : Option String
  created_at : String
deriving DecidableEq, Repr

/-- Math.max over a list of ids, as used by getNextId on a nonempty table. -/
def maxId (l : List Nat) : Nat := l.foldl max 0

/-- CsvDatabase.getNextId: 1 on an empty table, max id + 1 otherwise. -/
def getNextId (data : List Todo) : Nat :=
  if data.isEmpty then 1 else maxId (data.map (fun t => t.id)) + 1

/-- CsvDatabase.addTodo: assign the next id and append the record. -/
def addTodo (todos : List Todo) (todo : TodoInput) : List Todo × Nat :=
  let i := getNextId todos
  (todos ++ [{ id := i, date := todo.date, txt := todo.txt, done := todo.done,
               starred := todo.starred, due_date := todo.due_date,
               created_at := todo.created_at }], i)

/-- CsvDatabase.deleteTodo: filter the id out; false when nothing matched. -/
def deleteTodo (todos : List Todo) (i : Nat) : List Todo × Bool :=
  let filtered := todos.filter (fun t => t.id ≠ i)
  if filtered.length = todos.length then (todos, false) else (filtered, true)

/-! ## Subject normalization (normalizeSubject = subject.trim().toLowerCase())

The JavaScript string primitives trim and toLowerCase are modelled over the
character list of the string (ASCII case mapping and the common ASCII
whitespace set). -/

/-- Model of the character case mapping used by toLowerCase (ASCII range). -/
def jsCharToLower (c : Char) : Char :=
  if 65 ≤ c.toNat ∧ c.toNat ≤ 90 then Char.ofNat (c.toNat + 32) else c

/-- Model of the whitespace test used by trim (ASCII whitespace). -/
def jsIsWhite (c : Char) : Bool :=
  c = ' ' || c = '\t' || c = '\n' || c = '\r' || c = '\x0b' || c = '\x0c'

/-- Drop whitespace from both ends of a character list, as trim does. -/
def trimChars (l : List Char) : List Char :=
  ((l.dropWhile jsIsWhite).reverse.dropWhile jsIsWhite).reverse

/-- Model of String.prototype.trim. -/
def jsTrim (s : String) : String := String.mk (trimChars s.data)

/-- Model of String.prototype.toLowerCase. -/
def jsToLower (s : String) : String := String.mk (s.data.map jsCharToLower)

/-- TimerDatabase.normalizeSubject (also the store's subject-key
normalization): trim, then lowercase. -/
def normalizeSubject (subject : String) : String := jsToLower (jsTrim subject)

/-! ## Local time utilities (timeUtils.ts) -/

/-- Local-calendar components of a JS Date as seen by getFullYear, getMonth
(0-based) and getDate. -/
structure JsDate where
  year : Int
  month : Nat
  day : Nat
deriving DecidableEq, Repr

/-- Embedding of pad: String(n).padStart(len, "0") at the default len = 2. -/
def pad (n : Nat) : String :=
  if (toString n).length < 2 then "0" ++ toString n else toString n

/-- Embedding of localDateString: the YYYY-MM-DD string of the local calendar
day of the given instant. -/
def localDateString (d : JsDate) : String :=
  toString d.year ++ "-" ++ pad (d.month + 1) ++ "-" ++ pad d.day

/-! ## Timer database (timerDatabase.ts) -/

structure TimerData where
  id : Nat
  subject : String
  date : String
  total_minutes : Int
  last_updated : String
deriving DecidableEq, Repr

structure HiddenSubject where
  id : Nat
  subject : String
  hidden_at : String
deriving DecidableEq, Repr

/-- TimerDatabase.getNextId (the same computation as CsvDatabase.getNextId,
instantiated at TimerData). -/
def getNextIdTimer (data : List TimerData) : Nat :=
  if data.isEmpty then 1 else maxId (data.map (fun t => t.id)) + 1

/-- The lookup predicate of addOrUpdateTimerData: an entry matches when its
re-normalized subject and its date equal the requested key. -/
def timerKeyPred (normalizedSubject actualDate : String) (e : TimerData) : Bool :=
  decide (normalizeSubject e.subject = normalizedSubject ∧ e.date = actualDate)

/-- In-place mutation of the first list element satisfying p, as performed on
the array element returned by find / findIndex in the source. -/
def updateFirst {α : Type} (p : α → Bool) (f : α → α) : List α → List α
  | [] => []
  | x :: xs => if p x then f x :: xs else x :: updateFirst p f xs

/-- TimerDatabase.addOrUpdateTimerData: normalize the subject, default the
date to the current local day when absent or empty (the JS expression date ||
getCurrentLocalDate()), then either add the minutes to the matching entry and
refresh last_updated, or append a fresh entry.  Returns the new table and the
touched entry. -/
def actualDateOf (date : Option String) (nowDate : JsDate) : String :=
  match date with
  | none => localDateString nowDate
  | some d => if d = "" then localDateString nowDate else d

def addOrUpdateTimerData (timerData : List TimerData) (subject : String)
    (date : Option String) (minutesToAdd : Int) (nowDate : JsDate)
    (nowIso : String) : List TimerData × TimerData :=
  match timerData.find?
      (timerKeyPred (normalizeSubject subject) (actualDateOf date nowDate)) with
  | some e =>
    (updateFirst
      (timerKeyPred (normalizeSubject subject) (actualDateOf date nowDate))
      (fun x => { x with total_minutes := x.total_minutes + minutesToAdd,
                         last_updated := nowIso }) timerData,
     { e with total_minutes := e.total_minutes + minutesToAdd,
              last_updated := nowIso })
  | none =>
    (timerData ++
      [TimerData.mk (getNextIdTimer timerData) (normalizeSubject subject)
        (actualDateOf date nowDate) minutesToAdd nowIso],
     TimerData.mk (getNextIdTimer timerData) (normalizeSubject subject)
       (actualDateOf date nowDate) minutesToAdd nowIso)

/-- addOrUpdateTimerData with the minutesToAdd argument omitted: the source
declares minutesToAdd with default value 1. -/
def addOrUpdateTimerDataOneMinute (timerData : List TimerData) (subject : String)
    (date : Option String) (nowDate : JsDate) (nowIso : String) :
    List TimerData × TimerData :=
  addOrUpdateTimerData timerData subject date 1 nowDate nowIso

/-- TimerDatabase.deleteSubjectCompletely: filter the normalized subject out
of both tables; the returned flag is set only by the timer-table branch of the
source. -/
def deleteSubjectCompletely (timerData : List TimerData)
    (hiddenSubjects : List HiddenSubject) (subject : String) :
    List TimerData × List HiddenSubject × Bool :=
  let ns := normalizeSubject subject
  let filteredTimerData := timerData.filter (fun e => e.subject != ns)
  let filteredHiddenSubjects := hiddenSubjects.filter (fun h => h.subject != ns)
  let deleted := decide (filteredTimerData.length < timerData.length)
  (filteredTimerData, filteredHiddenSubjects, deleted)

/-- TimerDatabase.getTimerDataByDateRange: rows whose date lies in the closed
range under lexicographic string comparison. -/
def getTimerDataByDateRange (allData : List TimerData)
    (startDate endDate : String) : List TimerData :=
  allData.filter (fun e => decide (startDate ≤ e.date ∧ e.date ≤ endDate))

/-- The shared range dispatch of the aggregation queries: filter when both
bounds are present, the whole table otherwise. -/
def rangeData (allData : List TimerData)
    (range : Option (String × String)) : List TimerData :=
  match range with
  | some (s, e) => getTimerDataByDateRange allData s e
  | none => allData

/-- Lookup in the JS Map of running totals (first matching key). -/
def mapGet (m : List (String × Int)) (k : String) : Option Int :=
  (m.find? (fun p => p.1 == k)).map (fun p => p.2)

/-- Map.set: overwrite the value at an existing key in place, else append. -/
def mapSet (m : List (String × Int)) (k : String) (v : Int) :
    List (String × Int) :=
  if (m.find? (fun p => p.1 == k)).isSome
  then updateFirst (fun p => p.1 == k) (fun p => (p.1, v)) m
  else m ++ [(k, v)]

/-- One iteration of the Map-building loop of getSubjectTotalsByDateRange:
totals.set(subject, (totals.get(subject) || 0) + entry.total_minutes). -/
def totalsStep (m : List (String × Int)) (e : TimerData) : List (String × Int) :=
  mapSet m e.subject ((mapGet m e.subject).getD 0 + e.total_minutes)

/-- The Map-building loop of getSubjectTotalsByDateRange, from an arbitrary
accumulated map. -/
def totalsLoop (m : List (String × Int)) (data : List TimerData) :
    List (String × Int) :=
  data.foldl totalsStep m

/-- The Map built by getSubjectTotalsByDateRange before sorting. -/
def totalsOf (data : List TimerData) : List (String × Int) :=
  totalsLoop [] data

/-- TimerDatabase.getSubjectTotalsByDateRange: per-subject totals over the
range, sorted by descending minutes. -/
def getSubjectTotalsByDateRange (allData : List TimerData)
    (range : Option (String × String)) : List (String × Int) :=
  (totalsOf (rangeData allData range)).mergeSort (fun a b => decide (b.2 ≤ a.2))

structure SubjectDateRow where
  subject : String
  date : String
  total_minutes : Int
deriving DecidableEq, Repr

/-- TimerDatabase.getSubjectDateAggregatedData: the flat per-entry projection
over the range, sorted by descending date. -/
def getSubjectDateAggregatedData (allData : List TimerData)
    (range : Option (String × String)) : List SubjectDateRow :=
  ((rangeData allData range).map
      (fun e => SubjectDateRow.mk e.subject e.date e.total_minutes)).mergeSort
    (fun a b => decide (b.date ≤ a.date))

/-- Number of table rows matching a normalized (subject, date) key. -/
def timerKeyCount (timerData : List TimerData) (ns d : String) : Nat :=
  (timerData.filter (timerKeyPred ns d)).length

/-- Sum of total_minutes over the table rows matching a normalized
(subject, date) key. -/
def timerKeyTotal (timerData : List TimerData) (ns d : String) : Int :=
  ((timerData.filter (timerKeyPred ns d)).map (fun e => e.total_minutes)).sum

/-! ## Pomodoro store (store.ts) -/

structure DailyStat where
  date : String
  subject : String
  timeInSubject : Nat
  breakMinutes : Nat
  pauseMinutes : Nat
deriving DecidableEq, Repr

/-- The raw argument of addDailyStat before clamping. -/
structure DailyStatInput where
  date : String
  subject : String
  timeInSubject : Int
  breakMinutes : Int
  pauseMinutes : Int
deriving DecidableEq, Repr

structure SessionRow where
  id : String
  subjectId : Option Int
  subjectName : String
  startTime : Int
  endTime : Option Int
  durationMinutes : Option Nat
  pausedSeconds : Option Nat
deriving DecidableEq, Repr

/-- The persisted pomodoro-store state used by the claims: subject totals
(minutes per lowercase key), daily stats and sessions. -/
structure Store where
  subjectTotals : List (String × Nat)
  dailyStats : List DailyStat
  sessions : List SessionRow
deriving DecidableEq, Repr

def emptyStore : Store := Store.mk [] [] []

/-- store.incrementSubjectTotal after its empty-key validation: create the key
with totalTime 0 when absent, then add Math.max(0, Math.floor(minutes)). -/
def incrementSubjectTotalCore (totals : List (String × Nat)) (key : String)
    (minutes : Int) : List (String × Nat) :=
  let base := if (totals.find? (fun p => p.1 == key)).isSome then totals
              else totals ++ [(key, 0)]
  updateFirst (fun p => p.1 == key) (fun p => (p.1, p.2 + minutes.toNat)) base

/-- store.incrementSubjectTotal: throws on an empty normalized key, otherwise
adds the clamped minutes to the subject's total. -/
def incrementSubjectTotal (totals : List (String × Nat)) (subjectName : String)
    (minutes : Int) : Except String (List (String × Nat)) :=
  if normalizeSubject subjectName = "" then Except.error "Invalid subject name"
  else Except.ok (incrementSubjectTotalCore totals (normalizeSubject subjectName) minutes)

/-- The increments record passed to updateDailyStat. -/
structure StatIncrements where
  timeInSubject : Int
  breakMinutes : Int
  pauseMinutes : Int
deriving DecidableEq, Repr

/-- The findIndex predicate of updateDailyStat: a row matches when its date
and already-normalized subject equal the requested key. -/
def statKeyPred (date key : String) (r : DailyStat) : Bool :=
  r.date == date && r.subject == key

/-- The in-place row mutation of updateDailyStat's existing-row branch: add
the clamped increments (the source's Math.max(0, old + inc) equals old + inc
since both are non-negative). -/
def statBump (inc : StatIncrements) (r : DailyStat) : DailyStat :=
  DailyStat.mk r.date r.subject (r.timeInSubject + inc.timeInSubject.toNat)
    (r.breakMinutes + inc.breakMinutes.toNat)
    (r.pauseMinutes + inc.pauseMinutes.toNat)

/-- store.updateDailyStat over (dailyStats, subjectTotals): reject empty date
or key before mutating; clamp the increments; upsert the first row matching
(date, key); sync the subject total with the timeInSubject delta when it is
positive.  The Except component is the thrown-or-returned result. -/
def updateDailyStat (dailyStats : List DailyStat) (totals : List (String × Nat))
    (date : String) (subject : String) (inc : StatIncrements) :
    (List DailyStat × List (String × Nat)) × Except String DailyStat :=
  if date = "" ∨ normalizeSubject subject = "" then
    ((dailyStats, totals), Except.error "date and subject are required")
  else
    match dailyStats.find? (statKeyPred date (normalizeSubject subject)) with
    | none =>
      ((dailyStats ++ [DailyStat.mk date (normalizeSubject subject)
          inc.timeInSubject.toNat inc.breakMinutes.toNat inc.pauseMinutes.toNat],
        if 0 < inc.timeInSubject.toNat
        then incrementSubjectTotalCore totals (normalizeSubject subject)
               inc.timeInSubject
        else totals),
       Except.ok (DailyStat.mk date (normalizeSubject subject)
         inc.timeInSubject.toNat inc.breakMinutes.toNat inc.pauseMinutes.toNat))
    | some row =>
      ((updateFirst (statKeyPred date (normalizeSubject subject))
          (statBump inc) dailyStats,
        if 0 < inc.timeInSubject.toNat
        then incrementSubjectTotalCore totals (normalizeSubject subject)
               inc.timeInSubject
        else totals),
       Except.ok (statBump inc row))

/-- store.addDailyStat: clamp and normalize the row, push it, then try to sync
the subject total; with a subject that normalizes to empty the row stays
pushed (the push is persisted before the sync throws), exactly as in the
source. -/
def addDailyStat (dailyStats : List DailyStat) (totals : List (String × Nat))
    (stat : DailyStatInput) :
    (List DailyStat × List (String × Nat)) × Except String DailyStat :=
  match incrementSubjectTotal totals (normalizeSubject stat.subject)
      (Int.ofNat stat.timeInSubject.toNat) with
  | Except.ok t2 =>
    ((dailyStats ++ [DailyStat.mk stat.date (normalizeSubject stat.subject)
        stat.timeInSubject.toNat stat.breakMinutes.toNat
        stat.pauseMinutes.toNat], t2),
     Except.ok (DailyStat.mk stat.date (normalizeSubject stat.subject)
       stat.timeInSubject.toNat stat.breakMinutes.toNat
       stat.pauseMinutes.toNat))
  | Except.error msg =>
    ((dailyStats ++ [DailyStat.mk stat.date (normalizeSubject stat.subject)
        stat.timeInSubject.toNat stat.breakMinutes.toNat
        stat.pauseMinutes.toNat], totals),
     Except.error msg)

/-- store.startSessionInStore: push a fresh session row with startTime = now;
the subject name is the JS expression (subjectName || "general").trim(). -/
def startSessionInStore (sessions : List SessionRow) (subjectName : String)
    (subjectId : Option Int) (id : String) (now : Int) :
    List SessionRow × SessionRow :=
  let row := SessionRow.mk id subjectId
    (jsTrim (if subjectName = "" then "general" else subjectName)) now none
    none none
  (sessions ++ [row], row)

/-- store.completeSessionInStore: throw when the id is absent (before any
mutation); otherwise set endTime and the clamped duration/paused fields,
persist the sessions, then merge the duration into the daily stats keyed by
the local day of startTime via updateDailyStat.  The sessions update survives
even when the merge throws, as in the source. -/
def completeSessionInStore (st : Store) (msToDate : Int → JsDate) (now : Int)
    (sessionId : String) (durationMinutes pausedSeconds : Int) :
    Store × Except String SessionRow :=
  match st.sessions.find? (fun r => r.id == sessionId) with
  | none => (st, Except.error "session not found")
  | some row =>
    let row2 := SessionRow.mk row.id row.subjectId row.subjectName
      row.startTime (some now) (some durationMinutes.toNat)
      (some pausedSeconds.toNat)
    let sessions2 := updateFirst (fun r => r.id == sessionId) (fun _ => row2)
      st.sessions
    let merged := updateDailyStat st.dailyStats st.subjectTotals
      (localDateString (msToDate row.startTime)) row.subjectName
      (StatIncrements.mk (Int.ofNat durationMinutes.toNat) 0 0)
    (Store.mk merged.1.2 merged.1.1 sessions2,
     match merged.2 with
     | Except.ok _ => Except.ok row2
     | Except.error msg => Except.error msg)

/-- store.updateSessionProgress: throw on an empty id; return null and leave
the sessions unchanged when the id is unknown; otherwise overwrite
durationMinutes with max(0, floor(activeSeconds / 60)) and pausedSeconds with
max(0, floor(pausedSeconds)). -/
def updateSessionProgress (sessions : List SessionRow) (sessionId : String)
    (activeSeconds pausedSeconds : Int) :
    List SessionRow × Except String (Option SessionRow) :=
  if sessionId = "" then (sessions, Except.error "sessionId required")
  else
    match sessions.find? (fun r => r.id == sessionId) with
    | none => (sessions, Except.ok none)
    | some row =>
      let row2 := SessionRow.mk row.id row.subjectId row.subjectName
        row.startTime row.endTime (some (activeSeconds.fdiv 60).toNat)
        (some pausedSeconds.toNat)
      (updateFirst (fun r => r.id == sessionId) (fun _ => row2) sessions,
       Except.ok (some row2))

/-- The sessions:complete IPC handler of main.ts: calls completeSession and
converts success to true and any thrown error to false, keeping whatever state
the store call left behind. -/
def sessionsCompleteHandler (st : Store) (msToDate : Int → JsDate) (now : Int)
    (sessionId : String) (durationMinutes pausedSeconds : Int) :
    Store × Bool :=
  match completeSessionInStore st msToDate now sessionId durationMinutes
      pausedSeconds with
  | (st2, Except.ok _) => (st2, true)
  | (st2, Except.error _) => (st2, false)

/-! ## Daily-stat invariant machinery (C5) -/

/-- The store operations the daily-stat invariant quantifies over: session
start, the two increment-API entry points, and session completion.  Random
session ids and clock reads are supplied as operation parameters. -/
inductive StoreOp where
  | startOp (subjectName : String) (subjectId : Option Int) (id : String)
      (now : Int)
  | updateOp (date subject : String) (inc : StatIncrements)
  | addOp (stat : DailyStatInput)
  | completeOp (sessionId : String) (durationMinutes pausedSeconds : Int)
      (now : Int)
deriving DecidableEq, Repr

/-- One store operation applied to the state (a throwing call keeps whatever
it mutated before the throw). -/
def applyOp (msToDate : Int → JsDate) (st : Store) (op : StoreOp) : Store :=
  match op with
  | StoreOp.startOp subjectName subjectId id now =>
    Store.mk st.subjectTotals st.dailyStats
      (startSessionInStore st.sessions subjectName subjectId id now).1
  | StoreOp.updateOp date subject inc =>
    Store.mk (updateDailyStat st.dailyStats st.subjectTotals date subject
        inc).1.2
      (updateDailyStat st.dailyStats st.subjectTotals date subject inc).1.1
      st.sessions
  | StoreOp.addOp stat =>
    Store.mk (addDailyStat st.dailyStats st.subjectTotals stat).1.2
      (addDailyStat st.dailyStats st.subjectTotals stat).1.1 st.sessions
  | StoreOp.completeOp sessionId dur paused now =>
    (completeSessionInStore st msToDate now sessionId dur paused).1

def runOps (msToDate : Int → JsDate) (st : Store) (ops : List StoreOp) :
    Store :=
  ops.foldl (applyOp msToDate) st

/-- The clamped timeInSubject amount one operation actually adds to the
daily-stat rows of one (date, subject) key, computed against the pre-state
(session completion reads the session's start time and subject from it). -/
def opIncrement (msToDate : Int → JsDate) (st : Store) (op : StoreOp)
    (date subj : String) : Nat :=
  match op with
  | StoreOp.startOp _ _ _ _ => 0
  | StoreOp.updateOp d s inc =>
    if d = date ∧ normalizeSubject s = subj ∧ ¬(d = "")
        ∧ ¬(normalizeSubject s = "")
    then inc.timeInSubject.toNat else 0
  | StoreOp.addOp stat =>
    if stat.date = date ∧ normalizeSubject stat.subject = subj
    then stat.timeInSubject.toNat else 0
  | StoreOp.completeOp sessionId dur _ _ =>
    match st.sessions.find? (fun r => r.id == sessionId) with
    | none => 0
    | some row =>
      if localDateString (msToDate row.startTime) = date
          ∧ normalizeSubject row.subjectName = subj
          ∧ ¬(localDateString (msToDate row.startTime) = "")
          ∧ ¬(normalizeSubject row.subjectName = "")
      then dur.toNat else 0

/-- Everything a trace of operations ever added to one (date, subject) key:
completed-session durations plus non-session increments, clamped as applied. -/
def ledger (msToDate : Int → JsDate) (st : Store) (ops : List StoreOp)
    (date subj : String) : Nat :=
  match ops with
  | [] => 0
  | op :: rest =>
    opIncrement msToDate st op date subj
      + ledger msToDate (applyOp msToDate st op) rest date subj

/-- Accumulated timeInSubject of the daily-stat rows of one (date, subject)
key. -/
def statKeySum (stats : List DailyStat) (date subj : String) : Nat :=
  ((stats.filter (statKeyPred date subj)).map (fun r => r.timeInSubject)).sum

/-- Accumulated timeInSubject of one subject's daily-stat rows. -/
def statSubjectSum (stats : List DailyStat) (subj : String) : Nat :=
  ((stats.filter (fun r => r.subject == subj)).map
    (fun r => r.timeInSubject)).sum

/-- The aggregate a subjectTotals list holds for one subject (0 when absent). -/
def totalTimeFor (totals : List (String × Nat)) (subj : String) : Nat :=
  ((totals.find? (fun p => p.1 == subj)).map (fun p => p.2)).getD 0

/-- The totals-in-sync invariant: for every nonempty subject key, the
subjectTotals aggregate equals the sum of that subject's daily-stat rows. -/
def StoreInv (st : Store) : Prop :=
  ∀ s2, s2 ≠ "" →
    totalTimeFor st.subjectTotals s2 = statSubjectSum st.dailyStats s2

/-- Sum of the minutes of the aggregated rows belonging to one subject. -/
def sumRowsFor (rows : List SubjectDateRow) (s : String) : Int :=
  ((rows.filter (fun r => r.subject == s)).map (fun r => r.total_minutes)).sum

/-- The total a totals list reports for one subject (0 when absent). -/
def totalReportedFor (totals : List (String × Int)) (s : String) : Int :=
  ((totals.find? (fun p => p.1 == s)).map (fun p => p.2)).getD 0

/-- Sum of the values held for one key across a totals list. -/
def pairSumFor (m : List (String × Int)) (s : String) : Int :=
  ((m.filter (fun p => p.1 == s)).map (fun p => p.2)).sum

/-- Sum of total_minutes over one subject's raw table entries. -/
def entrySumFor (data : List TimerData) (s : String) : Int :=
  ((data.filter (fun e => e.subject == s)).map (fun e => e.total_minutes)).sum

/-! ## Reminder scheduler (notifications.ts)

The checker tick loads the reminders (loadReminders drops entries whose
timestamps cannot be normalized, so every loaded timestamp is a number),
fires a notification for every due reminder in stored order, and persists
only the remaining ones. -/

structure Reminder where
  id : String
  title : String
  body : Option String
  timestamp : Int
deriving DecidableEq, Repr

/-- The due partition of one checker tick: reminders with timestamp <= now,
in stored order; each of these gets a notification fired. -/
def dueReminders (now : Int) (list : List Reminder) : List Reminder :=
  list.filter (fun r => decide (r.timestamp ≤ now))

/-- The remaining partition of one tick: reminders with timestamp > now;
only these are persisted back (when nothing is due the file is left as is,
which holds the same list). -/
def remainingReminders (now : Int) (list : List Reminder) : List Reminder :=
  list.filter (fun r => decide (now < r.timestamp))

/-- A run of checker ticks at the given clock readings: the fired lists, one
per tick, and the final persisted reminder list. -/
def runTicks (nows : List Int) (list : List Reminder) :
    List (List Reminder) × List Reminder :=
  match nows with
  | [] => ([], list)
  | now :: rest =>
    (dueReminders now list
        :: (runTicks rest (remainingReminders now list)).1,
     (runTicks rest (remainingReminders now list)).2)

/-- How many notifications a run fires for one particular reminder. -/
def firedCount (r : Reminder) (fired : List (List Reminder)) : Nat :=
  (fired.map (fun l => l.count r)).sum

/-! ## Proofs -/

lemma toNat_ofNat_lower (n : Nat) (h1 : 97 ≤ n) (h2 : n ≤ 122) :
    (Char.ofNat n).toNat = n := by
  interval_cases n <;> decide

lemma jsCharToLower_idem (c : Char) :
    jsCharToLower (jsCharToLower c) = jsCharToLower c := by
  unfold jsCharToLower
  by_cases h : 65 ≤ c.toNat ∧ c.toNat ≤ 90
  · rw [if_pos h]
    have hv : (Char.ofNat (c.toNat + 32)).toNat = c.toNat + 32 :=
      toNat_ofNat_lower _ (by omega) (by omega)
    rw [if_neg (by omega)]
  · rw [if_neg h, if_neg h]

lemma jsIsWhite_ofNat_lower (n : Nat) (h1 : 97 ≤ n) (h2 : n ≤ 122) :
    jsIsWhite (Char.ofNat n) = false := by
  interval_cases n <;> decide

lemma jsIsWhite_jsCharToLower (c : Char) :
    jsIsWhite (jsCharToLower c) = jsIsWhite c := by
  unfold jsCharToLower
  by_cases h : 65 ≤ c.toNat ∧ c.toNat ≤ 90
  · rw [if_pos h, jsIsWhite_ofNat_lower _ (by omega) (by omega)]
    have hw : jsIsWhite c = false := by
      unfold jsIsWhite
      rcases h with ⟨h1, h2⟩
      simp only [Bool.or_eq_false_iff, decide_eq_false_iff_not]
      refine ⟨⟨⟨⟨⟨?_, ?_⟩, ?_⟩, ?_⟩, ?_⟩, ?_⟩ <;>
        · intro hc; subst hc; revert h1 h2; decide
    rw [hw]
  · rw [if_neg h]

lemma head?_dropWhile_false {α : Type} (p : α → Bool) (l : List α) :
    ∀ c, (l.dropWhile p).head? = some c → p c = false := by
  induction l with
  | nil => intro c h; cases h
  | cons a as ih =>
    intro c h
    by_cases hp : p a
    · rw [List.dropWhile_cons_of_pos hp] at h
      exact ih c h
    · rw [List.dropWhile_cons_of_neg hp] at h
      have : a = c := by
        have := h
        simp only [List.head?_cons, Option.some.injEq] at this
        exact this
      subst this
      exact Bool.eq_false_iff.mpr hp

lemma dropWhile_eq_self_of_head? {α : Type} (p : α → Bool) (l : List α)
    (h : ∀ c, l.head? = some c → p c = false) : l.dropWhile p = l := by
  cases l with
  | nil => rfl
  | cons a as =>
    have ha := h a rfl
    simp [List.dropWhile_cons, ha]

lemma head?_of_prefix {α : Type} {l1 l2 : List α} (h : l1 <+: l2)
    (hne : l1 ≠ []) : l2.head? = l1.head? := by
  obtain ⟨r, rfl⟩ := h
  cases l1 with
  | nil => exact absurd rfl hne
  | cons a as => rfl

lemma trimChars_head?_false (l : List Char) :
    ∀ c, (trimChars l).head? = some c → jsIsWhite c = false := by
  intro c hc
  set d1 := l.dropWhile jsIsWhite with hd1
  set u := d1.reverse.dropWhile jsIsWhite with hu
  have ht : trimChars l = u.reverse := rfl
  rw [ht] at hc
  have hpre : u.reverse <+: d1 := by
    have hsuf : u <:+ d1.reverse := List.dropWhile_suffix _
    have : u.reverse.reverse <:+ d1.reverse := by simpa using hsuf
    exact (List.reverse_suffix).mp (by simpa using this)
  have hne : u.reverse ≠ [] := by
    intro hnil
    rw [hnil] at hc
    cases hc
  have hhead : d1.head? = u.reverse.head? := head?_of_prefix hpre hne
  exact head?_dropWhile_false jsIsWhite l c (by rw [← hd1, hhead, hc])

lemma trimChars_getLast?_false (l : List Char) :
    ∀ c, (trimChars l).getLast? = some c → jsIsWhite c = false := by
  intro c hc
  have ht : (trimChars l).getLast?
      = ((l.dropWhile jsIsWhite).reverse.dropWhile jsIsWhite).head? := by
    unfold trimChars
    rw [List.getLast?_reverse]
  rw [ht] at hc
  exact head?_dropWhile_false jsIsWhite (l.dropWhile jsIsWhite).reverse c hc

lemma trimChars_eq_self_of_ends (l : List Char)
    (h1 : ∀ c, l.head? = some c → jsIsWhite c = false)
    (h2 : ∀ c, l.getLast? = some c → jsIsWhite c = false) : trimChars l = l := by
  unfold trimChars
  rw [dropWhile_eq_self_of_head? _ _ h1]
  rw [dropWhile_eq_self_of_head? _ l.reverse
    (by intro c hc; rw [List.head?_reverse] at hc; exact h2 c hc)]
  simp

lemma trimChars_map_lower_fixed (l : List Char) :
    trimChars ((trimChars l).map jsCharToLower) = (trimChars l).map jsCharToLower := by
  apply trimChars_eq_self_of_ends
  · intro c hc
    rw [List.head?_map] at hc
    cases hh : (trimChars l).head? with
    | none => rw [hh] at hc; cases hc
    | some d =>
      rw [hh] at hc
      simp only [Option.map_some', Option.some.injEq] at hc
      rw [← hc, jsIsWhite_jsCharToLower]
      exact trimChars_head?_false l d hh
  · intro c hc
    have hgl : ((trimChars l).map jsCharToLower).getLast?
        = ((trimChars l).getLast?).map jsCharToLower := by
      rw [← List.head?_reverse, ← List.map_reverse, List.head?_map,
        List.head?_reverse]
    rw [hgl] at hc
    cases hh : (trimChars l).getLast? with
    | none => rw [hh] at hc; cases hc
    | some d =>
      rw [hh] at hc
      simp only [Option.map_some', Option.some.injEq] at hc
      rw [← hc, jsIsWhite_jsCharToLower]
      exact trimChars_getLast?_false l d hh

/-- Normalization is idempotent: trimming and lowercasing an
already-normalized subject leaves it unchanged. -/
theorem normalizeSubject_idem (s : String) :
    normalizeSubject (normalizeSubject s) = normalizeSubject s := by
  unfold normalizeSubject jsToLower jsTrim
  have hdata : ∀ l : List Char, (String.mk l).data = l := fun l => rfl
  congr 1
  rw [hdata, hdata, trimChars_map_lower_fixed, List.map_map]
  have : jsCharToLower ∘ jsCharToLower = jsCharToLower := by
    funext c
    exact jsCharToLower_idem c
  rw [this]

/-! ## Generic list infrastructure for the proofs -/

lemma find?_some_decomp {α : Type} (p : α → Bool) (l : List α) (x : α)
    (h : l.find? p = some x) :
    ∃ l1 l2, l = l1 ++ x :: l2 ∧ (∀ y ∈ l1, p y = false) ∧ p x = true := by
  induction l with
  | nil => cases h
  | cons a as ih =>
    cases hpa : p a with
    | true =>
      rw [List.find?_cons_of_pos _ hpa] at h
      obtain rfl : a = x := by injection h
      exact ⟨[], as, rfl, by simp, hpa⟩
    | false =>
      rw [List.find?_cons_of_neg _ (by simp [hpa])] at h
      obtain ⟨l1, l2, hdec, h1, h2⟩ := ih h
      refine ⟨a :: l1, l2, by rw [hdec]; rfl, ?_, h2⟩
      intro y hy
      rcases List.mem_cons.mp hy with rfl | hy2
      · exact hpa
      · exact h1 y hy2

lemma updateFirst_append_none {α : Type} (p : α → Bool) (f : α → α)
    (l1 l2 : List α) (h : ∀ y ∈ l1, p y = false) :
    updateFirst p f (l1 ++ l2) = l1 ++ updateFirst p f l2 := by
  induction l1 with
  | nil => rfl
  | cons a as ih =>
    have ha : p a = false := h a (List.mem_cons_self a as)
    simp only [List.cons_append, updateFirst, ha, Bool.false_eq_true, if_false,
      List.cons.injEq, true_and]
    exact ih (fun y hy => h y (List.mem_cons_of_mem a hy))

lemma updateFirst_cons_pos {α : Type} (p : α → Bool) (f : α → α) (x : α)
    (l : List α) (h : p x = true) :
    updateFirst p f (x :: l) = f x :: l := by
  simp [updateFirst, h]

lemma updateFirst_eq_self_of_none {α : Type} (p : α → Bool) (f : α → α)
    (l : List α) (h : ∀ y ∈ l, p y = false) : updateFirst p f l = l := by
  induction l with
  | nil => rfl
  | cons a as ih =>
    have ha : p a = false := h a (List.mem_cons_self a as)
    simp only [updateFirst, ha, Bool.false_eq_true, if_false, List.cons.injEq,
      true_and]
    exact ih (fun y hy => h y (List.mem_cons_of_mem a hy))

lemma foldl_max_le_init (l : List Nat) (a : Nat) : a ≤ l.foldl max a := by
  induction l generalizing a with
  | nil => simp
  | cons x xs ih => exact le_trans (le_max_left a x) (ih (max a x))

lemma mem_le_foldl_max (l : List Nat) (a : Nat) : ∀ x ∈ l, x ≤ l.foldl max a := by
  induction l generalizing a with
  | nil => intro x hx; cases hx
  | cons y ys ih =>
    intro x hx
    simp only [List.foldl_cons]
    rcases List.mem_cons.mp hx with h | h
    · subst h; exact le_trans (le_max_right a x) (foldl_max_le_init ys (max a x))
    · exact ih (max a y) x h

/-- C1: as stated the claim is false.  A successful save leaves a stale backup
file on disk (it is never deleted); if the next save's backup rename then
fails, the catch handler sees the stale backup and renames it over the primary,
so the primary ends up holding the content from two saves ago, not its
pre-write content.  Concretely: starting from primary "v1", a successful write
of "v2" leaves primary "v2" and backup "v1"; a write of "v3" failing at the
backup rename then leaves primary "v1" even though its pre-write content was
"v2". -/
theorem writeCSV_stale_backup_clobbers :
    (writeCSV (FS.mk (some "v1") none none) "v2" FailPoint.noFail).2 = false
    ∧ (writeCSV (FS.mk (some "v1") none none) "v2" FailPoint.noFail).1
        = FS.mk (some "v2") (some "v1") none
    ∧ (writeCSV (FS.mk (some "v2") (some "v1") none) "v3" FailPoint.atBackupRename).2 = true
    ∧ (writeCSV (FS.mk (some "v2") (some "v1") none) "v3"
        FailPoint.atBackupRename).1.primary = some "v1" := by
  decide

/-- C1 (amended): if the save fails at the final rename while the primary
existed beforehand, or fails at either rename while no backup file was on
disk, then the failure is propagated to the caller and the primary file equals
its pre-write content.  (When the backup rename fails while a stale backup from
an earlier save exists, the handler instead renames that stale backup over the
primary, as the counterexample shows.) -/
theorem writeCSV_failure_restores_primary (fs : FS) (content : String) (fp : FailPoint)
    (hfail : fp = FailPoint.atFinalRename
      ∨ (fp = FailPoint.atBackupRename ∧ fs.primary ≠ none))
    (hclean : fs.backup = none
      ∨ (fp = FailPoint.atFinalRename ∧ fs.primary ≠ none)) :
    (writeCSV fs content fp).2 = true
    ∧ (writeCSV fs content fp).1.primary = fs.primary := by
  obtain ⟨p, b, t⟩ := fs
  rcases hfail with hfp | ⟨hfp, hp⟩ <;> subst hfp
  · rcases hclean with hb | ⟨h2, hp⟩
    · subst hb
      cases p <;> simp [writeCSV, restoreBackup]
    · cases p with
      | none => exact absurd rfl hp
      | some q => cases b <;> simp [writeCSV, restoreBackup]
  · rcases hclean with hb | ⟨h2, hp2⟩
    · subst hb
      cases p with
      | none => exact absurd rfl hp
      | some q => simp [writeCSV, restoreBackup]
    · exact absurd h2 (by simp)

theorem writeCSV_failure_restores_primary_witness :
    (writeCSV (FS.mk (some "v1") none none) "v2" FailPoint.atFinalRename).2 = true
    ∧ (writeCSV (FS.mk (some "v1") none none) "v2"
        FailPoint.atFinalRename).1.primary = some "v1" :=
  writeCSV_failure_restores_primary (FS.mk (some "v1") none none) "v2"
    FailPoint.atFinalRename (Or.inl rfl) (Or.inl rfl)

/-- C2: as stated the claim is false.  Identifiers are assigned as
max(existing ids) + 1, so deleting the record that holds the maximal id makes
the next insert reassign that same id.  Concretely: two inserts into an empty
todos table assign ids 1 and 2; after deleting the record with id 2, the next
insert assigns id 2 again. -/
theorem deleted_max_id_is_reused :
    (let ti : TodoInput := TodoInput.mk "2025-01-01" "a" 0 0 none "t"
     let s1 := addTodo [] ti
     let s2 := addTodo s1.1 ti
     let s3 := deleteTodo s2.1 2
     let s4 := addTodo s3.1 ti
     s1.2 = 1 ∧ s2.2 = 2 ∧ s3.2 = true ∧ s4.2 = 2) := by
  decide

/-- C2 (amended): an insert assigns the identifier max(existing ids) + 1, or 1
when the table is empty, and the assigned identifier is strictly greater than
every id currently in the table (so it never collides with a live record); but
a previously deleted id can be reassigned once every record with an id at
least as large has been deleted, as the counterexample shows. -/
theorem addTodo_assigns_fresh_max_id (todos : List Todo) (todo : TodoInput) :
    ((addTodo todos todo).2
        = if todos.isEmpty then 1 else maxId (todos.map (fun t => t.id)) + 1)
    ∧ ∀ t ∈ todos, t.id < (addTodo todos todo).2 := by
  constructor
  · rfl
  · intro t ht
    cases todos with
    | nil => cases ht
    | cons a l =>
      have hmem : t.id ∈ (a :: l).map (fun x => x.id) :=
        List.mem_map.mpr ⟨t, ht, rfl⟩
      have hle : t.id ≤ ((a :: l).map (fun x => x.id)).foldl max 0 :=
        mem_le_foldl_max ((a :: l).map (fun x => x.id)) 0 t.id hmem
      have heq : (addTodo (a :: l) todo).2
          = ((a :: l).map (fun x => x.id)).foldl max 0 + 1 := rfl
      omega

theorem addTodo_assigns_fresh_max_id_witness :
    ((addTodo [Todo.mk 1 "2025-01-01" "a" 0 0 none "t"]
        (TodoInput.mk "2025-01-02" "b" 0 0 none "u")).2
      = if ([Todo.mk 1 "2025-01-01" "a" 0 0 none "t"] : List Todo).isEmpty then 1
        else maxId (([Todo.mk 1 "2025-01-01" "a" 0 0 none "t"] : List Todo).map
          (fun t => t.id)) + 1)
    ∧ (Todo.mk 1 "2025-01-01" "a" 0 0 none "t").id
        < (addTodo [Todo.mk 1 "2025-01-01" "a" 0 0 none "t"]
            (TodoInput.mk "2025-01-02" "b" 0 0 none "u")).2 :=
  And.intro
    (addTodo_assigns_fresh_max_id [Todo.mk 1 "2025-01-01" "a" 0 0 none "t"]
      (TodoInput.mk "2025-01-02" "b" 0 0 none "u")).1
    ((addTodo_assigns_fresh_max_id [Todo.mk 1 "2025-01-01" "a" 0 0 none "t"]
      (TodoInput.mk "2025-01-02" "b" 0 0 none "u")).2
      (Todo.mk 1 "2025-01-01" "a" 0 0 none "t") (by decide))

/-- C4: as stated the claim is false.  The deleted flag is set only by the
timer-table branch of deleteSubjectCompletely; a removal that only touches the
hidden-subjects table returns false.  Concretely: with an empty timer table
and one hidden row for "math", deleting "math" removes that hidden row yet
returns false. -/
theorem deleteSubjectCompletely_hidden_only_returns_false :
    (deleteSubjectCompletely [] [HiddenSubject.mk 1 "math" "t"] "math").2.1 = []
    ∧ (deleteSubjectCompletely [] [HiddenSubject.mk 1 "math" "t"] "math").2.2
        = false := by
  decide

/-- C4 (amended): deleteSubjectCompletely removes exactly the TimerEntry rows
and HiddenSubject rows whose subject equals the normalization of the argument,
and returns true iff at least one TimerEntry row was removed; removals that
only touch the hidden-subjects table return false, as the counterexample
shows. -/
theorem deleteSubjectCompletely_spec (timerData : List TimerData)
    (hiddenSubjects : List HiddenSubject) (subject : String) :
    (∀ e ∈ (deleteSubjectCompletely timerData hiddenSubjects subject).1,
        e.subject ≠ normalizeSubject subject)
    ∧ (∀ e ∈ timerData, e.subject ≠ normalizeSubject subject →
        e ∈ (deleteSubjectCompletely timerData hiddenSubjects subject).1)
    ∧ (∀ h ∈ (deleteSubjectCompletely timerData hiddenSubjects subject).2.1,
        h.subject ≠ normalizeSubject subject)
    ∧ (∀ h ∈ hiddenSubjects, h.subject ≠ normalizeSubject subject →
        h ∈ (deleteSubjectCompletely timerData hiddenSubjects subject).2.1)
    ∧ ((deleteSubjectCompletely timerData hiddenSubjects subject).2.2 = true
        ↔ ∃ e ∈ timerData, e.subject = normalizeSubject subject) := by
  simp only [deleteSubjectCompletely]
  refine ⟨?_, ?_, ?_, ?_, ?_⟩
  · intro e he
    have h2 := (List.mem_filter.mp he).2
    simpa [bne_iff_ne] using h2
  · intro e he hne
    exact List.mem_filter.mpr ⟨he, by simpa [bne_iff_ne] using hne⟩
  · intro h hh
    have h2 := (List.mem_filter.mp hh).2
    simpa [bne_iff_ne] using h2
  · intro h hh hne
    exact List.mem_filter.mpr ⟨hh, by simpa [bne_iff_ne] using hne⟩
  · simp only [decide_eq_true_eq]
    rw [List.length_filter_lt_length_iff_exists]
    constructor
    · rintro ⟨e, he, hp⟩
      exact ⟨e, he, by simpa [bne_iff_ne] using hp⟩
    · rintro ⟨e, he, hp⟩
      exact ⟨e, he, by simpa [bne_iff_ne] using hp⟩

theorem deleteSubjectCompletely_spec_witness :
    (deleteSubjectCompletely [TimerData.mk 1 "math" "2025-01-01" 5 "t"] []
        "math").2.2 = true :=
  ((deleteSubjectCompletely_spec [TimerData.mk 1 "math" "2025-01-01" 5 "t"] []
      "math").2.2.2.2).mpr
    ⟨TimerData.mk 1 "math" "2025-01-01" 5 "t", by decide, by decide⟩

lemma length_filter_updateFirst {α : Type} (p q : α → Bool) (f : α → α)
    (hq : ∀ x, q (f x) = q x) (l : List α) :
    ((updateFirst p f l).filter q).length = (l.filter q).length := by
  induction l with
  | nil => rfl
  | cons a as ih =>
    cases hpa : p a with
    | true =>
      rw [updateFirst_cons_pos _ _ _ _ hpa, List.filter_cons, List.filter_cons,
        hq a]
      cases q a <;> simp
    | false =>
      simp only [updateFirst, hpa, Bool.false_eq_true, if_false]
      rw [List.filter_cons, List.filter_cons]
      cases q a <;> simp [ih]

lemma sum_map_filter_updateFirst_found {α : Type} (p : α → Bool) (f : α → α)
    (m : α → Int) (d : Int) (l : List α) (x : α) (hfind : l.find? p = some x)
    (hpf : ∀ y, p (f y) = p y) (hm : ∀ y, p y = true → m (f y) = m y + d) :
    (((updateFirst p f l).filter p).map m).sum
      = ((l.filter p).map m).sum + d := by
  obtain ⟨l1, l2, rfl, h1, h2⟩ := find?_some_decomp p l x hfind
  rw [updateFirst_append_none p f l1 _ h1, updateFirst_cons_pos _ _ _ _ h2]
  rw [List.filter_append, List.filter_append, List.filter_cons, List.filter_cons,
    hpf x, h2]
  simp only [if_true]
  rw [List.map_append, List.map_append, List.sum_append, List.sum_append]
  simp only [List.map_cons, List.sum_cons, hm x h2]
  ring

/-- The per-row update of the upsert branch keeps the row's key fields. -/
lemma timerKeyPred_update (ns d : String) (minutes : Int) (nowIso : String) :
    ∀ x : TimerData,
      timerKeyPred ns d
          { x with total_minutes := x.total_minutes + minutes,
                   last_updated := nowIso }
        = timerKeyPred ns d x := by
  intro x
  rfl

lemma addOrUpdateTimerData_fst_some (timerData : List TimerData)
    (subject : String) (date : Option String) (minutes : Int) (nowDate : JsDate)
    (nowIso : String) (e : TimerData)
    (h : timerData.find? (timerKeyPred (normalizeSubject subject)
          (actualDateOf date nowDate)) = some e) :
    (addOrUpdateTimerData timerData subject date minutes nowDate nowIso).1
      = updateFirst
          (timerKeyPred (normalizeSubject subject) (actualDateOf date nowDate))
          (fun x => { x with total_minutes := x.total_minutes + minutes,
                             last_updated := nowIso }) timerData := by
  unfold addOrUpdateTimerData
  rw [h]

lemma addOrUpdateTimerData_fst_none (timerData : List TimerData)
    (subject : String) (date : Option String) (minutes : Int) (nowDate : JsDate)
    (nowIso : String)
    (h : timerData.find? (timerKeyPred (normalizeSubject subject)
          (actualDateOf date nowDate)) = none) :
    (addOrUpdateTimerData timerData subject date minutes nowDate nowIso).1
      = timerData ++
          [TimerData.mk (getNextIdTimer timerData) (normalizeSubject subject)
            (actualDateOf date nowDate) minutes nowIso] := by
  unfold addOrUpdateTimerData
  rw [h]

lemma addOrUpdateTimerData_snd_some (timerData : List TimerData)
    (subject : String) (date : Option String) (minutes : Int) (nowDate : JsDate)
    (nowIso : String) (e : TimerData)
    (h : timerData.find? (timerKeyPred (normalizeSubject subject)
          (actualDateOf date nowDate)) = some e) :
    (addOrUpdateTimerData timerData subject date minutes nowDate nowIso).2
      = { e with total_minutes := e.total_minutes + minutes,
                 last_updated := nowIso } := by
  unfold addOrUpdateTimerData
  rw [h]

lemma addOrUpdateTimerData_snd_none (timerData : List TimerData)
    (subject : String) (date : Option String) (minutes : Int) (nowDate : JsDate)
    (nowIso : String)
    (h : timerData.find? (timerKeyPred (normalizeSubject subject)
          (actualDateOf date nowDate)) = none) :
    (addOrUpdateTimerData timerData subject date minutes nowDate nowIso).2
      = TimerData.mk (getNextIdTimer timerData) (normalizeSubject subject)
          (actualDateOf date nowDate) minutes nowIso := by
  unfold addOrUpdateTimerData
  rw [h]

/-- C6: two upserts for the same date under subjects differing only in case
land in one entry whose minutes accumulate (30 + 15 = 45), and in general the
upsert preserves uniqueness of rows per normalized (subject, date) key. -/
theorem addOrUpdateTimerData_case_normalization_unique :
    (∀ (timerData : List TimerData) (nowDate : JsDate) (iso1 iso2 : String),
      timerKeyCount timerData "math" "2025-01-01" = 0 →
      ∃ e, ((addOrUpdateTimerData
              (addOrUpdateTimerData timerData "Math" (some "2025-01-01") 30
                nowDate iso1).1
              "math" (some "2025-01-01") 15 nowDate iso2).1.filter
              (timerKeyPred "math" "2025-01-01")) = [e]
        ∧ e.total_minutes = 45)
    ∧ (∀ (timerData : List TimerData) (subject : String) (date : Option String)
        (minutes : Int) (nowDate : JsDate) (nowIso : String),
        (∀ ns d, timerKeyCount timerData ns d ≤ 1) →
        ∀ ns d, timerKeyCount
          (addOrUpdateTimerData timerData subject date minutes nowDate
            nowIso).1 ns d ≤ 1) := by
  constructor
  · intro timerData nowDate iso1 iso2 h0
    have hnone : ∀ e ∈ timerData, timerKeyPred "math" "2025-01-01" e = false := by
      intro e he
      have hnil : timerData.filter (timerKeyPred "math" "2025-01-01") = [] := by
        have h1 := h0
        unfold timerKeyCount at h1
        exact List.eq_nil_of_length_eq_zero h1
      have h2 := List.filter_eq_nil_iff.mp hnil e he
      simpa using h2
    have hMath : normalizeSubject "Math" = "math" := by decide
    have hmath : normalizeSubject "math" = "math" := by decide
    have hAD : actualDateOf (some "2025-01-01") nowDate = "2025-01-01" := by
      simp [actualDateOf]
    have hfind1 : timerData.find? (timerKeyPred "math" "2025-01-01") = none :=
      List.find?_eq_none.mpr (by intro x hx; simp [hnone x hx])
    have hfind1M : timerData.find? (timerKeyPred (normalizeSubject "Math")
        (actualDateOf (some "2025-01-01") nowDate)) = none := by
      rw [hMath, hAD]; exact hfind1
    have hstep1 : (addOrUpdateTimerData timerData "Math" (some "2025-01-01") 30
        nowDate iso1).1
        = timerData ++ [TimerData.mk (getNextIdTimer timerData) "math"
            "2025-01-01" 30 iso1] := by
      rw [addOrUpdateTimerData_fst_none _ _ _ _ _ _ hfind1M, hMath, hAD]
    have hpred : timerKeyPred "math" "2025-01-01"
        (TimerData.mk (getNextIdTimer timerData) "math" "2025-01-01" 30 iso1)
        = true := by
      unfold timerKeyPred
      simp only [decide_eq_true_eq]
      exact ⟨by decide, by trivial⟩
    have hfind2 : (timerData ++ [TimerData.mk (getNextIdTimer timerData) "math"
        "2025-01-01" 30 iso1]).find? (timerKeyPred "math" "2025-01-01")
        = some (TimerData.mk (getNextIdTimer timerData) "math" "2025-01-01" 30
            iso1) := by
      rw [List.find?_append, hfind1]
      simp [List.find?_cons_of_pos _ hpred]
    have hfind2M : (timerData ++ [TimerData.mk (getNextIdTimer timerData) "math"
        "2025-01-01" 30 iso1]).find? (timerKeyPred (normalizeSubject "math")
        (actualDateOf (some "2025-01-01") nowDate))
        = some (TimerData.mk (getNextIdTimer timerData) "math" "2025-01-01" 30
            iso1) := by
      rw [hmath, hAD]; exact hfind2
    have hstep2 : (addOrUpdateTimerData
        (timerData ++ [TimerData.mk (getNextIdTimer timerData) "math"
          "2025-01-01" 30 iso1]) "math" (some "2025-01-01") 15 nowDate iso2).1
        = timerData ++ [TimerData.mk (getNextIdTimer timerData) "math"
            "2025-01-01" 45 iso2] := by
      rw [addOrUpdateTimerData_fst_some _ _ _ _ _ _ _ hfind2M, hmath, hAD]
      rw [updateFirst_append_none _ _ _ _ hnone,
        updateFirst_cons_pos _ _ _ _ hpred]
      norm_num
    rw [hstep1, hstep2]
    refine ⟨TimerData.mk (getNextIdTimer timerData) "math" "2025-01-01" 45 iso2,
      ?_, rfl⟩
    rw [List.filter_append]
    rw [List.filter_eq_nil_iff.mpr (by intro x hx; simp [hnone x hx])]
    have hpred45 : timerKeyPred "math" "2025-01-01"
        (TimerData.mk (getNextIdTimer timerData) "math" "2025-01-01" 45 iso2)
        = true := by
      unfold timerKeyPred
      simp only [decide_eq_true_eq]
      exact ⟨by decide, by trivial⟩
    simp [List.filter_cons, hpred45]
  · intro timerData subject date minutes nowDate nowIso hinv ns d
    cases hfind : timerData.find?
        (timerKeyPred (normalizeSubject subject) (actualDateOf date nowDate)) with
    | some e =>
      rw [timerKeyCount,
        addOrUpdateTimerData_fst_some _ _ _ _ _ _ _ hfind,
        length_filter_updateFirst _ _ _ (timerKeyPred_update ns d minutes nowIso)]
      exact hinv ns d
    | none =>
      rw [timerKeyCount, addOrUpdateTimerData_fst_none _ _ _ _ _ _ hfind,
        List.filter_append, List.length_append]
      cases hp : timerKeyPred ns d (TimerData.mk (getNextIdTimer timerData)
          (normalizeSubject subject) (actualDateOf date nowDate) minutes
          nowIso) with
      | false =>
        simp only [List.filter_cons, hp, Bool.false_eq_true, if_false,
          List.filter_nil, List.length_nil, Nat.add_zero]
        exact hinv ns d
      | true =>
        have hkey : ns = normalizeSubject (normalizeSubject subject)
            ∧ d = actualDateOf date nowDate := by
          unfold timerKeyPred at hp
          simp only [decide_eq_true_eq] at hp
          exact ⟨hp.1.symm, hp.2.symm⟩
        have hns : ns = normalizeSubject subject := by
          rw [hkey.1, normalizeSubject_idem]
        have hcount0 : (timerData.filter (timerKeyPred ns d)).length = 0 := by
          rw [List.length_eq_zero]
          apply List.filter_eq_nil_iff.mpr
          intro x hx hpx
          have hne : timerData.find? (timerKeyPred ns d) ≠ none := by
            intro hcon
            exact absurd hpx (by simpa using List.find?_eq_none.mp hcon x hx)
          rw [hns, hkey.2] at hne
          exact hne hfind
        rw [hcount0]
        simp [List.filter_cons, hp]

theorem addOrUpdateTimerData_case_normalization_unique_witness :
    ∃ e, ((addOrUpdateTimerData
            (addOrUpdateTimerData [] "Math" (some "2025-01-01") 30
              (JsDate.mk 2025 0 1) "t1").1
            "math" (some "2025-01-01") 15 (JsDate.mk 2025 0 1) "t2").1.filter
            (timerKeyPred "math" "2025-01-01")) = [e]
      ∧ e.total_minutes = 45 :=
  addOrUpdateTimerData_case_normalization_unique.1 [] (JsDate.mk 2025 0 1)
    "t1" "t2" (by decide)

/-- C9: with the date argument omitted or empty, addOrUpdateTimerData buckets
the minutes under the current local calendar day as computed by
localDateString; with the minutes argument omitted (source default 1) the
upsert adds exactly one minute to the normalized (subject, current-day) key. -/
theorem addOrUpdateTimerData_defaults (timerData : List TimerData)
    (subject : String) (date : Option String) (nowDate : JsDate)
    (nowIso : String) (hdate : date = none ∨ date = some "") :
    ((addOrUpdateTimerDataOneMinute timerData subject date nowDate
        nowIso).2.date = localDateString nowDate)
    ∧ (timerKeyTotal
          (addOrUpdateTimerDataOneMinute timerData subject date nowDate
            nowIso).1
          (normalizeSubject subject) (localDateString nowDate)
        = timerKeyTotal timerData (normalizeSubject subject)
            (localDateString nowDate) + 1) := by
  have hAD : actualDateOf date nowDate = localDateString nowDate := by
    rcases hdate with h | h <;> simp [actualDateOf, h]
  unfold addOrUpdateTimerDataOneMinute
  cases hfind : timerData.find?
      (timerKeyPred (normalizeSubject subject) (actualDateOf date nowDate)) with
  | some e =>
    constructor
    · rw [addOrUpdateTimerData_snd_some _ _ _ _ _ _ _ hfind]
      obtain ⟨l1, l2, hdec, hl1, hpe⟩ := find?_some_decomp _ _ _ hfind
      unfold timerKeyPred at hpe
      simp only [decide_eq_true_eq] at hpe
      rw [← hAD]
      exact hpe.2
    · rw [addOrUpdateTimerData_fst_some _ _ _ _ _ _ _ hfind]
      unfold timerKeyTotal
      rw [← hAD]
      exact sum_map_filter_updateFirst_found _ _ _ 1 _ e hfind
        (fun y => rfl) (fun y hy => rfl)
  | none =>
    constructor
    · rw [addOrUpdateTimerData_snd_none _ _ _ _ _ _ hfind]
      exact hAD
    · rw [addOrUpdateTimerData_fst_none _ _ _ _ _ _ hfind]
      unfold timerKeyTotal
      rw [← hAD, List.filter_append]
      have hprednew : timerKeyPred (normalizeSubject subject)
          (actualDateOf date nowDate)
          (TimerData.mk (getNextIdTimer timerData) (normalizeSubject subject)
            (actualDateOf date nowDate) 1 nowIso) = true := by
        unfold timerKeyPred
        simp only [decide_eq_true_eq]
        exact ⟨normalizeSubject_idem subject, by trivial⟩
      rw [List.map_append, List.sum_append]
      simp [List.filter_cons, hprednew]

theorem addOrUpdateTimerData_defaults_witness :
    ((addOrUpdateTimerDataOneMinute [] "Math" none (JsDate.mk 2025 0 1)
        "t").2.date = localDateString (JsDate.mk 2025 0 1))
    ∧ (timerKeyTotal
          (addOrUpdateTimerDataOneMinute [] "Math" none (JsDate.mk 2025 0 1)
            "t").1
          (normalizeSubject "Math") (localDateString (JsDate.mk 2025 0 1))
        = timerKeyTotal [] (normalizeSubject "Math")
            (localDateString (JsDate.mk 2025 0 1)) + 1) :=
  addOrUpdateTimerData_defaults [] "Math" none (JsDate.mk 2025 0 1) "t"
    (Or.inl rfl)

lemma map_updateFirst_eq {α β : Type} (p : α → Bool) (f : α → α) (g : α → β)
    (hg : ∀ x, g (f x) = g x) (l : List α) :
    (updateFirst p f l).map g = l.map g := by
  induction l with
  | nil => rfl
  | cons a as ih =>
    cases hpa : p a with
    | true => rw [updateFirst_cons_pos _ _ _ _ hpa]; simp [hg a]
    | false =>
      simp only [updateFirst, hpa, Bool.false_eq_true, if_false, List.map_cons]
      rw [ih]

lemma pairSumFor_totalsStep (m : List (String × Int)) (e : TimerData)
    (s : String) :
    pairSumFor (totalsStep m e) s
      = pairSumFor m s + (if e.subject == s then e.total_minutes else 0) := by
  unfold totalsStep mapSet mapGet
  cases hfind : m.find? (fun p => p.1 == e.subject) with
  | none =>
    simp only [hfind, Option.isSome_none, Bool.false_eq_true, if_false,
      Option.map_none', Option.getD_none, zero_add]
    unfold pairSumFor
    rw [List.filter_append, List.map_append, List.sum_append]
    cases hks : (e.subject == s) with
    | true => simp [List.filter_cons, hks]
    | false => simp [List.filter_cons, hks]
  | some q =>
    have hq : q.1 = e.subject := by
      obtain ⟨l1, l2, hdec, hl1, hpq⟩ := find?_some_decomp _ _ _ hfind
      exact eq_of_beq hpq
    obtain ⟨l1, l2, hdec, hl1, hpq⟩ := find?_some_decomp _ _ _ hfind
    simp only [hfind, Option.isSome_some, if_true, Option.map_some',
      Option.getD_some]
    subst hdec
    rw [updateFirst_append_none _ _ _ _ hl1,
      updateFirst_cons_pos (fun y => y.1 == e.subject)
        (fun p => (p.1, q.2 + e.total_minutes)) q l2 hpq]
    unfold pairSumFor
    rw [List.filter_append, List.filter_append, List.map_append,
      List.map_append, List.sum_append, List.sum_append, List.filter_cons,
      List.filter_cons]
    cases hks : (q.1 == s) with
    | true =>
      have hes : (e.subject == s) = true := by rw [← hq]; exact hks
      simp only [hks, if_true, List.map_cons, List.sum_cons, hes]
      ring
    | false =>
      have hes : (e.subject == s) = false := by rw [← hq]; exact hks
      simp only [hks, Bool.false_eq_true, if_false, hes, add_zero]

lemma keys_nodup_totalsStep (m : List (String × Int)) (e : TimerData)
    (h : (m.map Prod.fst).Nodup) :
    ((totalsStep m e).map Prod.fst).Nodup := by
  unfold totalsStep mapSet
  cases hfind : m.find? (fun p => p.1 == e.subject) with
  | none =>
    simp only [hfind, Option.isSome_none, Bool.false_eq_true, if_false]
    rw [List.map_append]
    rw [List.nodup_append]
    refine ⟨h, List.nodup_singleton _, ?_⟩
    intro k hk hk2
    simp only [List.map_cons, List.map_nil, List.mem_singleton] at hk2
    obtain ⟨p, hp, hp1⟩ := List.mem_map.mp hk
    have := List.find?_eq_none.mp hfind p hp
    rw [hk2] at hp1
    exact this (by simp [hp1])
  | some q =>
    simp only [hfind, Option.isSome_some, if_true]
    rw [map_updateFirst_eq (fun p => p.1 == e.subject)
      (fun p => (p.1, (mapGet m e.subject).getD 0 + e.total_minutes)) Prod.fst
      (fun x => rfl) m]
    exact h

lemma totalsLoop_spec (data : List TimerData) (m : List (String × Int))
    (h : (m.map Prod.fst).Nodup) :
    ((totalsLoop m data).map Prod.fst).Nodup
    ∧ ∀ s, pairSumFor (totalsLoop m data) s = pairSumFor m s + entrySumFor data s := by
  induction data generalizing m with
  | nil =>
    refine ⟨h, fun s => ?_⟩
    unfold totalsLoop entrySumFor
    simp
  | cons e rest ih =>
    have hstep : totalsLoop m (e :: rest) = totalsLoop (totalsStep m e) rest := rfl
    obtain ⟨hn, hs⟩ := ih (totalsStep m e) (keys_nodup_totalsStep m e h)
    rw [hstep]
    refine ⟨hn, fun s => ?_⟩
    rw [hs s, pairSumFor_totalsStep]
    unfold entrySumFor
    rw [List.filter_cons]
    cases hks : (e.subject == s) with
    | true => simp only [hks, if_true, List.map_cons, List.sum_cons]; ring
    | false => simp only [hks, Bool.false_eq_true, if_false]; ring

lemma totalReportedFor_eq_pairSumFor (m : List (String × Int)) (s : String)
    (h : (m.map Prod.fst).Nodup) :
    totalReportedFor m s = pairSumFor m s := by
  induction m with
  | nil => rfl
  | cons q m2 ih =>
    have h2 : (m2.map Prod.fst).Nodup := (List.nodup_cons.mp h).2
    have hq1 : q.1 ∉ m2.map Prod.fst := (List.nodup_cons.mp h).1
    cases hqs : (q.1 == s) with
    | true =>
      have hs : q.1 = s := eq_of_beq hqs
      unfold totalReportedFor pairSumFor
      rw [@List.find?_cons_of_pos _ (fun p => p.1 == s) q m2 hqs,
        List.filter_cons, hqs]
      have hnil : m2.filter (fun p => p.1 == s) = [] := by
        apply List.filter_eq_nil_iff.mpr
        intro p hp hps
        exact hq1 (by rw [hs, ← eq_of_beq hps]; exact List.mem_map_of_mem _ hp)
      simp [hnil]
    | false =>
      unfold totalReportedFor pairSumFor
      rw [@List.find?_cons_of_neg _ (fun p => p.1 == s) q m2 (by simp [hqs]),
        List.filter_cons, hqs]
      simp only [Bool.false_eq_true, if_false]
      exact ih h2

lemma sumRowsFor_perm {r1 r2 : List SubjectDateRow} (h : r1.Perm r2)
    (s : String) : sumRowsFor r1 s = sumRowsFor r2 s :=
  List.Perm.sum_eq (List.Perm.map _ (List.Perm.filter _ h))

lemma pairSumFor_perm {m1 m2 : List (String × Int)} (h : m1.Perm m2)
    (s : String) : pairSumFor m1 s = pairSumFor m2 s :=
  List.Perm.sum_eq (List.Perm.map _ (List.Perm.filter _ h))

/-- C7: for every table, subject and (optional) date range, the sum of
total_minutes over the rows of getSubjectDateAggregatedData belonging to the
subject equals the total reported for that subject by
getSubjectTotalsByDateRange (0 when the subject is absent from both). -/
theorem aggregation_consistency (allData : List TimerData)
    (range : Option (String × String)) (s : String) :
    sumRowsFor (getSubjectDateAggregatedData allData range) s
      = totalReportedFor (getSubjectTotalsByDateRange allData range) s := by
  have hrows : sumRowsFor (getSubjectDateAggregatedData allData range) s
      = entrySumFor (rangeData allData range) s := by
    unfold getSubjectDateAggregatedData
    rw [sumRowsFor_perm (List.mergeSort_perm _ _) s]
    unfold sumRowsFor entrySumFor
    rw [List.filter_map, List.map_map]
    rfl
  have hfold := totalsLoop_spec (rangeData allData range) [] (by simp)
  have hnodupSorted : ((getSubjectTotalsByDateRange allData range).map
      Prod.fst).Nodup := by
    unfold getSubjectTotalsByDateRange
    rw [List.Perm.nodup_iff (List.Perm.map _ (List.mergeSort_perm _ _))]
    exact hfold.1
  rw [hrows, totalReportedFor_eq_pairSumFor _ _ hnodupSorted]
  unfold getSubjectTotalsByDateRange
  rw [pairSumFor_perm (List.mergeSort_perm _ _) s]
  have hsum := hfold.2 s
  unfold totalsOf
  rw [hsum]
  unfold pairSumFor
  simp

/-- C3: completing a session id absent from the store is reported by the
sessions:complete handler as the boolean false (the store-level throw is
caught there, never propagated to the caller), and the stored sessions, daily
stats and subject totals are left unchanged. -/
theorem sessionsComplete_unknown_id (st : Store) (msToDate : Int → JsDate)
    (now : Int) (sessionId : String) (durationMinutes pausedSeconds : Int)
    (h : ∀ r ∈ st.sessions, r.id ≠ sessionId) :
    sessionsCompleteHandler st msToDate now sessionId durationMinutes
        pausedSeconds = (st, false)
    ∧ (completeSessionInStore st msToDate now sessionId durationMinutes
        pausedSeconds).1 = st := by
  have hfind : st.sessions.find? (fun r => r.id == sessionId) = none :=
    List.find?_eq_none.mpr (by intro x hx; simpa using h x hx)
  constructor
  · unfold sessionsCompleteHandler completeSessionInStore
    rw [hfind]
  · unfold completeSessionInStore
    rw [hfind]

theorem sessionsComplete_unknown_id_witness :
    sessionsCompleteHandler
        (Store.mk [] [] [SessionRow.mk "a" none "math" 0 none none none])
        (fun _ => JsDate.mk 2025 0 1) 5 "b" 10 0
      = (Store.mk [] [] [SessionRow.mk "a" none "math" 0 none none none],
         false)
    ∧ (completeSessionInStore
        (Store.mk [] [] [SessionRow.mk "a" none "math" 0 none none none])
        (fun _ => JsDate.mk 2025 0 1) 5 "b" 10 0).1
      = Store.mk [] [] [SessionRow.mk "a" none "math" 0 none none none] :=
  sessionsComplete_unknown_id
    (Store.mk [] [] [SessionRow.mk "a" none "math" 0 none none none])
    (fun _ => JsDate.mk 2025 0 1) 5 "b" 10 0 (by decide)

/-- C10: updateSessionProgress with a nonempty unknown session id returns null
and leaves the stored sessions unchanged; for an existing session it
overwrites durationMinutes with max(0, floor(activeSeconds / 60)) and
pausedSeconds with the clamped supplied cumulative value, replacing only the
found row. -/
theorem updateSessionProgress_spec (sessions : List SessionRow)
    (sessionId : String) (activeSeconds pausedSeconds : Int)
    (hid : sessionId ≠ "") :
    ((∀ r ∈ sessions, r.id ≠ sessionId) →
      updateSessionProgress sessions sessionId activeSeconds pausedSeconds
        = (sessions, Except.ok none))
    ∧ (∀ row, sessions.find? (fun r => r.id == sessionId) = some row →
        updateSessionProgress sessions sessionId activeSeconds pausedSeconds
          = (updateFirst (fun r => r.id == sessionId)
              (fun _ => SessionRow.mk row.id row.subjectId row.subjectName
                row.startTime row.endTime (some (activeSeconds.fdiv 60).toNat)
                (some pausedSeconds.toNat)) sessions,
             Except.ok (some (SessionRow.mk row.id row.subjectId
               row.subjectName row.startTime row.endTime
               (some (activeSeconds.fdiv 60).toNat)
               (some pausedSeconds.toNat))))) := by
  constructor
  · intro h
    have hfind : sessions.find? (fun r => r.id == sessionId) = none :=
      List.find?_eq_none.mpr (by intro x hx; simpa using h x hx)
    unfold updateSessionProgress
    rw [if_neg hid, hfind]
  · intro row hfind
    unfold updateSessionProgress
    rw [if_neg hid, hfind]

theorem updateSessionProgress_spec_witness :
    (updateSessionProgress [SessionRow.mk "a" none "math" 0 none none none]
        "b" 90 7
      = ([SessionRow.mk "a" none "math" 0 none none none], Except.ok none))
    ∧ (updateSessionProgress [SessionRow.mk "a" none "math" 0 none none none]
        "a" 90 7
      = (updateFirst (fun r => r.id == "a")
          (fun _ => SessionRow.mk "a" none "math" 0 none (some 1) (some 7))
          [SessionRow.mk "a" none "math" 0 none none none],
         Except.ok (some (SessionRow.mk "a" none "math" 0 none (some 1)
           (some 7))))) :=
  And.intro
    ((updateSessionProgress_spec
        [SessionRow.mk "a" none "math" 0 none none none] "b" 90 7
        (by decide)).1 (by decide))
    ((updateSessionProgress_spec
        [SessionRow.mk "a" none "math" 0 none none none] "a" 90 7
        (by decide)).2 (SessionRow.mk "a" none "math" 0 none none none)
      (by decide))

lemma natSum_filter_updateFirst (stats : List DailyStat)
    (p q : DailyStat → Bool) (f : DailyStat → DailyStat) (row : DailyStat)
    (t : Nat) (hfind : stats.find? p = some row)
    (hq : ∀ r, q (f r) = q r)
    (ht : ∀ r, (f r).timeInSubject = r.timeInSubject + t) :
    (((updateFirst p f stats).filter q).map (fun r => r.timeInSubject)).sum
      = ((stats.filter q).map (fun r => r.timeInSubject)).sum
        + (if q row then t else 0) := by
  obtain ⟨l1, l2, rfl, h1, h2⟩ := find?_some_decomp p stats row hfind
  rw [updateFirst_append_none p f l1 _ h1, updateFirst_cons_pos p f row l2 h2]
  rw [List.filter_append, List.filter_append, List.filter_cons,
    List.filter_cons, hq row]
  cases hqr : q row with
  | true =>
    simp only [hqr, if_true, List.map_append, List.map_cons, List.sum_append,
      List.sum_cons, ht row]
    omega
  | false =>
    simp only [hqr, Bool.false_eq_true, if_false, List.map_append,
      List.sum_append]
    omega

lemma natSum_filter_append_single (stats : List DailyStat)
    (q : DailyStat → Bool) (row : DailyStat) :
    (((stats ++ [row]).filter q).map (fun r => r.timeInSubject)).sum
      = ((stats.filter q).map (fun r => r.timeInSubject)).sum
        + (if q row then row.timeInSubject else 0) := by
  rw [List.filter_append, List.map_append, List.sum_append]
  cases hq : q row <;> simp [List.filter_cons, hq]

lemma totalTimeFor_incrementCore (totals : List (String × Nat)) (key : String)
    (m : Int) (subj : String) :
    totalTimeFor (incrementSubjectTotalCore totals key m) subj
      = totalTimeFor totals subj + (if subj = key then m.toNat else 0) := by
  unfold incrementSubjectTotalCore
  cases hfind : totals.find? (fun p => p.1 == key) with
  | none =>
    have hnotot : ∀ y ∈ totals, ((fun p => p.1 == key) y) = false := by
      intro y hy
      simpa using List.find?_eq_none.mp hfind y hy
    simp only [hfind, Option.isSome_none, Bool.false_eq_true, if_false]
    rw [updateFirst_append_none _ _ _ _ hnotot,
      updateFirst_cons_pos (fun p => p.1 == key)
        (fun p => (p.1, p.2 + m.toNat)) (key, 0) [] (by simp)]
    by_cases hsk : subj = key
    · subst hsk
      unfold totalTimeFor
      rw [List.find?_append, hfind]
      simp
    · unfold totalTimeFor
      rw [List.find?_append]
      have hone : ([((key, 0 + m.toNat) : String × Nat)].find?
          (fun p => p.1 == subj)) = none := by
        simp [beq_iff_eq]
        exact fun h => hsk h.symm
      rw [hone]
      simp [hsk]
  | some q =>
    simp only [hfind, Option.isSome_some, if_true]
    obtain ⟨l1, l2, rfl, h1, h2⟩ := find?_some_decomp _ _ _ hfind
    rw [updateFirst_append_none _ _ _ _ h1,
      updateFirst_cons_pos (fun p => p.1 == key)
        (fun p => (p.1, p.2 + m.toNat)) q l2 h2]
    have hq1 : q.1 = key := eq_of_beq h2
    by_cases hsk : subj = key
    · subst hsk
      have hl1 : l1.find? (fun p => p.1 == subj) = none :=
        List.find?_eq_none.mpr (by intro y hy; simp [h1 y hy])
      unfold totalTimeFor
      rw [List.find?_append, List.find?_append, hl1]
      simp only [Option.none_or]
      rw [@List.find?_cons_of_pos _ (fun p => p.1 == subj) (q.1, q.2 + m.toNat)
          l2 (by simp [hq1]),
        @List.find?_cons_of_pos _ (fun p => p.1 == subj) q l2 (by simp [hq1])]
      simp
    · have hqf : ((q.1 == subj) = false) := by
        simp only [beq_eq_false_iff_ne, ne_eq, hq1]
        exact fun h => hsk h.symm
      unfold totalTimeFor
      rw [List.find?_append, List.find?_append,
        @List.find?_cons_of_neg _ (fun p => p.1 == subj) (q.1, q.2 + m.toNat)
          l2 (by simp [hqf]),
        @List.find?_cons_of_neg _ (fun p => p.1 == subj) q l2 (by simp [hqf])]
      simp [hsk]

lemma statKeyPred_iff (date key : String) (r : DailyStat) :
    statKeyPred date key r = true ↔ (r.date = date ∧ r.subject = key) := by
  unfold statKeyPred
  simp [Bool.and_eq_true, beq_iff_eq]

lemma updateDailyStat_reject (dailyStats : List DailyStat)
    (totals : List (String × Nat)) (date subject : String)
    (inc : StatIncrements) (h : date = "" ∨ normalizeSubject subject = "") :
    updateDailyStat dailyStats totals date subject inc
      = ((dailyStats, totals), Except.error "date and subject are required") := by
  unfold updateDailyStat
  rw [if_pos h]

lemma updateDailyStat_of_none (dailyStats : List DailyStat)
    (totals : List (String × Nat)) (date subject : String)
    (inc : StatIncrements) (hv : ¬(date = "" ∨ normalizeSubject subject = ""))
    (h : dailyStats.find? (statKeyPred date (normalizeSubject subject)) = none) :
    updateDailyStat dailyStats totals date subject inc
      = ((dailyStats ++ [DailyStat.mk date (normalizeSubject subject)
            inc.timeInSubject.toNat inc.breakMinutes.toNat
            inc.pauseMinutes.toNat],
          if 0 < inc.timeInSubject.toNat
          then incrementSubjectTotalCore totals (normalizeSubject subject)
                 inc.timeInSubject
          else totals),
         Except.ok (DailyStat.mk date (normalizeSubject subject)
           inc.timeInSubject.toNat inc.breakMinutes.toNat
           inc.pauseMinutes.toNat)) := by
  unfold updateDailyStat
  rw [if_neg hv, h]

lemma updateDailyStat_of_some (dailyStats : List DailyStat)
    (totals : List (String × Nat)) (date subject : String)
    (inc : StatIncrements) (row : DailyStat)
    (hv : ¬(date = "" ∨ normalizeSubject subject = ""))
    (h : dailyStats.find? (statKeyPred date (normalizeSubject subject))
        = some row) :
    updateDailyStat dailyStats totals date subject inc
      = ((updateFirst (statKeyPred date (normalizeSubject subject))
            (statBump inc) dailyStats,
          if 0 < inc.timeInSubject.toNat
          then incrementSubjectTotalCore totals (normalizeSubject subject)
                 inc.timeInSubject
          else totals),
         Except.ok (statBump inc row)) := by
  unfold updateDailyStat
  rw [if_neg hv, h]

lemma updateDailyStat_daily_reject (dailyStats : List DailyStat)
    (totals : List (String × Nat)) (date subject : String)
    (inc : StatIncrements) (h : date = "" ∨ normalizeSubject subject = "") :
    (updateDailyStat dailyStats totals date subject inc).1.1 = dailyStats := by
  rw [updateDailyStat_reject _ _ _ _ _ h]

lemma updateDailyStat_totals_reject (dailyStats : List DailyStat)
    (totals : List (String × Nat)) (date subject : String)
    (inc : StatIncrements) (h : date = "" ∨ normalizeSubject subject = "") :
    (updateDailyStat dailyStats totals date subject inc).1.2 = totals := by
  rw [updateDailyStat_reject _ _ _ _ _ h]

lemma updateDailyStat_daily_none (dailyStats : List DailyStat)
    (totals : List (String × Nat)) (date subject : String)
    (inc : StatIncrements) (hv : ¬(date = "" ∨ normalizeSubject subject = ""))
    (h : dailyStats.find? (statKeyPred date (normalizeSubject subject)) = none) :
    (updateDailyStat dailyStats totals date subject inc).1.1
      = dailyStats ++ [DailyStat.mk date (normalizeSubject subject)
          inc.timeInSubject.toNat inc.breakMinutes.toNat
          inc.pauseMinutes.toNat] := by
  rw [updateDailyStat_of_none _ _ _ _ _ hv h]

lemma updateDailyStat_daily_some (dailyStats : List DailyStat)
    (totals : List (String × Nat)) (date subject : String)
    (inc : StatIncrements) (row : DailyStat)
    (hv : ¬(date = "" ∨ normalizeSubject subject = ""))
    (h : dailyStats.find? (statKeyPred date (normalizeSubject subject))
        = some row) :
    (updateDailyStat dailyStats totals date subject inc).1.1
      = updateFirst (statKeyPred date (normalizeSubject subject))
          (statBump inc) dailyStats := by
  rw [updateDailyStat_of_some _ _ _ _ _ row hv h]

lemma updateDailyStat_totals_branch (dailyStats : List DailyStat)
    (totals : List (String × Nat)) (date subject : String)
    (inc : StatIncrements) (hv : ¬(date = "" ∨ normalizeSubject subject = "")) :
    (updateDailyStat dailyStats totals date subject inc).1.2
      = (if 0 < inc.timeInSubject.toNat
         then incrementSubjectTotalCore totals (normalizeSubject subject)
                inc.timeInSubject
         else totals) := by
  cases h : dailyStats.find? (statKeyPred date (normalizeSubject subject)) with
  | none => rw [updateDailyStat_of_none _ _ _ _ _ hv h]
  | some row => rw [updateDailyStat_of_some _ _ _ _ _ row hv h]

lemma statKeySum_updateDailyStat (dailyStats : List DailyStat)
    (totals : List (String × Nat)) (date subject : String)
    (inc : StatIncrements) (d2 s2 : String) :
    statKeySum (updateDailyStat dailyStats totals date subject inc).1.1 d2 s2
      = statKeySum dailyStats d2 s2
        + (if date = d2 ∧ normalizeSubject subject = s2 ∧ ¬(date = "")
              ∧ ¬(normalizeSubject subject = "")
           then inc.timeInSubject.toNat else 0) := by
  by_cases hval : date = "" ∨ normalizeSubject subject = ""
  · rw [updateDailyStat_daily_reject _ _ _ _ _ hval, if_neg (by tauto)]
    omega
  · cases hfind : dailyStats.find?
        (statKeyPred date (normalizeSubject subject)) with
    | none =>
      rw [updateDailyStat_daily_none _ _ _ _ _ hval hfind]
      push_neg at hval
      unfold statKeySum
      rw [natSum_filter_append_single]
      congr 1
      by_cases hmatch : date = d2 ∧ normalizeSubject subject = s2
      · rw [if_pos ((statKeyPred_iff _ _ _).mpr ⟨hmatch.1, hmatch.2⟩),
          if_pos ⟨hmatch.1, hmatch.2, hval.1, hval.2⟩]
      · rw [if_neg (fun hq => hmatch ((statKeyPred_iff _ _ _).mp hq)),
          if_neg (by tauto)]
    | some row =>
      rw [updateDailyStat_daily_some _ _ _ _ _ row hval hfind]
      push_neg at hval
      unfold statKeySum
      rw [natSum_filter_updateFirst dailyStats
        (statKeyPred date (normalizeSubject subject)) (statKeyPred d2 s2)
        (statBump inc) row inc.timeInSubject.toNat hfind (fun r => rfl)
        (fun r => rfl)]
      have hrow : row.date = date ∧ row.subject = normalizeSubject subject := by
        obtain ⟨l1, l2, hdec, h1, h2⟩ := find?_some_decomp _ _ _ hfind
        exact (statKeyPred_iff _ _ _).mp h2
      congr 1
      by_cases hmatch : date = d2 ∧ normalizeSubject subject = s2
      · rw [if_pos ((statKeyPred_iff _ _ _).mpr
            ⟨hrow.1.trans hmatch.1, hrow.2.trans hmatch.2⟩),
          if_pos ⟨hmatch.1, hmatch.2, hval.1, hval.2⟩]
      · have hnq : ¬ (statKeyPred d2 s2 row = true) := by
          intro hq
          obtain ⟨hd, hs⟩ := (statKeyPred_iff _ _ _).mp hq
          exact hmatch ⟨hrow.1.symm.trans hd, hrow.2.symm.trans hs⟩
        rw [if_neg hnq, if_neg (by tauto)]

lemma inv_parts_updateDailyStat (dailyStats : List DailyStat)
    (totals : List (String × Nat)) (date subject : String)
    (inc : StatIncrements)
    (hInv : ∀ s2, s2 ≠ "" →
      totalTimeFor totals s2 = statSubjectSum dailyStats s2)
    (s2 : String) (hs2 : s2 ≠ "") :
    totalTimeFor (updateDailyStat dailyStats totals date subject inc).1.2 s2
      = statSubjectSum
          (updateDailyStat dailyStats totals date subject inc).1.1 s2 := by
  by_cases hval : date = "" ∨ normalizeSubject subject = ""
  · rw [updateDailyStat_totals_reject _ _ _ _ _ hval,
      updateDailyStat_daily_reject _ _ _ _ _ hval]
    exact hInv s2 hs2
  · rw [updateDailyStat_totals_branch _ _ _ _ _ hval]
    have htot : totalTimeFor (if 0 < inc.timeInSubject.toNat
        then incrementSubjectTotalCore totals (normalizeSubject subject)
               inc.timeInSubject
        else totals) s2
        = totalTimeFor totals s2
          + (if s2 = normalizeSubject subject
             then inc.timeInSubject.toNat else 0) := by
      by_cases hpos : 0 < inc.timeInSubject.toNat
      · rw [if_pos hpos, totalTimeFor_incrementCore]
      · rw [if_neg hpos]
        have h0 : inc.timeInSubject.toNat = 0 := by omega
        rw [h0]
        simp
    rw [htot, hInv s2 hs2]
    cases hfind : dailyStats.find?
        (statKeyPred date (normalizeSubject subject)) with
    | none =>
      have hpush : statSubjectSum (dailyStats ++
          [DailyStat.mk date (normalizeSubject subject)
            inc.timeInSubject.toNat inc.breakMinutes.toNat
            inc.pauseMinutes.toNat]) s2
          = statSubjectSum dailyStats s2
            + (if s2 = normalizeSubject subject
               then inc.timeInSubject.toNat else 0) := by
        unfold statSubjectSum
        rw [natSum_filter_append_single]
        congr 1
        by_cases hm : s2 = normalizeSubject subject
        · rw [if_pos (by simp [hm]), if_pos hm]
        · rw [if_neg (by simp only [beq_iff_eq]; exact fun h => hm h.symm),
            if_neg hm]
      rw [updateDailyStat_daily_none _ _ _ _ _ hval hfind, hpush]
    | some row =>
      have hrow : row.date = date ∧ row.subject = normalizeSubject subject := by
        obtain ⟨l1, l2, hdec, h1, h2⟩ := find?_some_decomp _ _ _ hfind
        exact (statKeyPred_iff _ _ _).mp h2
      have hupd : statSubjectSum (updateFirst
          (statKeyPred date (normalizeSubject subject)) (statBump inc)
          dailyStats) s2
          = statSubjectSum dailyStats s2
            + (if s2 = normalizeSubject subject
               then inc.timeInSubject.toNat else 0) := by
        unfold statSubjectSum
        rw [natSum_filter_updateFirst dailyStats
          (statKeyPred date (normalizeSubject subject))
          (fun r => r.subject == s2) (statBump inc) row
          inc.timeInSubject.toNat hfind (fun r => rfl) (fun r => rfl)]
        congr 1
        by_cases hm : s2 = normalizeSubject subject
        · rw [if_pos (by simp [hrow.2, hm]), if_pos hm]
        · have hcond : ¬ ((row.subject == s2) = true) := by
            intro hq
            rw [hrow.2] at hq
            exact hm (eq_of_beq hq).symm
          rw [if_neg hcond, if_neg hm]
      rw [updateDailyStat_daily_some _ _ _ _ _ row hval hfind, hupd]

lemma addDailyStat_parts (dailyStats : List DailyStat)
    (totals : List (String × Nat)) (stat : DailyStatInput) :
    (addDailyStat dailyStats totals stat).1.1
        = dailyStats ++ [DailyStat.mk stat.date (normalizeSubject stat.subject)
            stat.timeInSubject.toNat stat.breakMinutes.toNat
            stat.pauseMinutes.toNat]
    ∧ (addDailyStat dailyStats totals stat).1.2
        = (if normalizeSubject stat.subject = "" then totals
           else incrementSubjectTotalCore totals
             (normalizeSubject stat.subject)
             (Int.ofNat stat.timeInSubject.toNat)) := by
  unfold addDailyStat incrementSubjectTotal
  rw [normalizeSubject_idem]
  by_cases hkey : normalizeSubject stat.subject = ""
  · rw [if_pos hkey]
    exact ⟨rfl, by rw [if_pos hkey]⟩
  · rw [if_neg hkey]
    exact ⟨rfl, by rw [if_neg hkey]⟩

lemma statKeySum_addDailyStat (dailyStats : List DailyStat)
    (totals : List (String × Nat)) (stat : DailyStatInput) (d2 s2 : String) :
    statKeySum (addDailyStat dailyStats totals stat).1.1 d2 s2
      = statKeySum dailyStats d2 s2
        + (if stat.date = d2 ∧ normalizeSubject stat.subject = s2
           then stat.timeInSubject.toNat else 0) := by
  rw [(addDailyStat_parts dailyStats totals stat).1]
  unfold statKeySum
  rw [natSum_filter_append_single]
  congr 1
  by_cases h : stat.date = d2 ∧ normalizeSubject stat.subject = s2
  · rw [if_pos ((statKeyPred_iff _ _ _).mpr ⟨h.1, h.2⟩), if_pos h]
  · rw [if_neg (fun hq => h ((statKeyPred_iff _ _ _).mp hq)), if_neg h]

lemma inv_parts_addDailyStat (dailyStats : List DailyStat)
    (totals : List (String × Nat)) (stat : DailyStatInput)
    (hInv : ∀ s2, s2 ≠ "" →
      totalTimeFor totals s2 = statSubjectSum dailyStats s2)
    (s2 : String) (hs2 : s2 ≠ "") :
    totalTimeFor (addDailyStat dailyStats totals stat).1.2 s2
      = statSubjectSum (addDailyStat dailyStats totals stat).1.1 s2 := by
  rw [(addDailyStat_parts dailyStats totals stat).1,
    (addDailyStat_parts dailyStats totals stat).2]
  have hpush : statSubjectSum (dailyStats ++
      [DailyStat.mk stat.date (normalizeSubject stat.subject)
        stat.timeInSubject.toNat stat.breakMinutes.toNat
        stat.pauseMinutes.toNat]) s2
      = statSubjectSum dailyStats s2
        + (if normalizeSubject stat.subject = s2
           then stat.timeInSubject.toNat else 0) := by
    unfold statSubjectSum
    rw [natSum_filter_append_single]
    congr 1
    by_cases hm : normalizeSubject stat.subject = s2
    · rw [if_pos (by simp [hm]), if_pos hm]
    · rw [if_neg (by simp only [beq_iff_eq]; exact hm), if_neg hm]
  rw [hpush]
  by_cases hkey : normalizeSubject stat.subject = ""
  · rw [if_pos hkey, hInv s2 hs2,
      if_neg (by rw [hkey]; exact fun h => hs2 h.symm)]
    omega
  · rw [if_neg hkey, totalTimeFor_incrementCore, hInv s2 hs2]
    congr 1
    by_cases hm : normalizeSubject stat.subject = s2
    · rw [if_pos hm.symm, if_pos hm]
      rfl
    · rw [if_neg (fun h => hm h.symm), if_neg hm]

lemma completeSessionInStore_of_none (st : Store) (msToDate : Int → JsDate)
    (now : Int) (sid : String) (dur paused : Int)
    (h : st.sessions.find? (fun r => r.id == sid) = none) :
    completeSessionInStore st msToDate now sid dur paused
      = (st, Except.error "session not found") := by
  unfold completeSessionInStore
  rw [h]

lemma completeSessionInStore_fst_of_some (st : Store) (msToDate : Int → JsDate)
    (now : Int) (sid : String) (dur paused : Int) (row : SessionRow)
    (h : st.sessions.find? (fun r => r.id == sid) = some row) :
    (completeSessionInStore st msToDate now sid dur paused).1
      = Store.mk
          (updateDailyStat st.dailyStats st.subjectTotals
            (localDateString (msToDate row.startTime)) row.subjectName
            (StatIncrements.mk (Int.ofNat dur.toNat) 0 0)).1.2
          (updateDailyStat st.dailyStats st.subjectTotals
            (localDateString (msToDate row.startTime)) row.subjectName
            (StatIncrements.mk (Int.ofNat dur.toNat) 0 0)).1.1
          (updateFirst (fun r => r.id == sid)
            (fun _ => SessionRow.mk row.id row.subjectId row.subjectName
              row.startTime (some now) (some dur.toNat) (some paused.toNat))
            st.sessions) := by
  unfold completeSessionInStore
  rw [h]

lemma statKeySum_applyOp (msToDate : Int → JsDate) (st : Store) (op : StoreOp)
    (date subj : String) :
    statKeySum (applyOp msToDate st op).dailyStats date subj
      = statKeySum st.dailyStats date subj
        + opIncrement msToDate st op date subj := by
  cases op with
  | startOp a b c d =>
    show statKeySum st.dailyStats date subj = _
    simp only [opIncrement]
    omega
  | updateOp d s inc =>
    show statKeySum (updateDailyStat st.dailyStats st.subjectTotals d s
        inc).1.1 date subj = _
    rw [statKeySum_updateDailyStat]
    rfl
  | addOp stat =>
    show statKeySum (addDailyStat st.dailyStats st.subjectTotals stat).1.1
        date subj = _
    rw [statKeySum_addDailyStat]
    rfl
  | completeOp sid dur paused now =>
    cases hfind : st.sessions.find? (fun r => r.id == sid) with
    | none =>
      have hL : applyOp msToDate st (StoreOp.completeOp sid dur paused now)
          = st := by
        show (completeSessionInStore st msToDate now sid dur paused).1 = st
        rw [completeSessionInStore_of_none _ _ _ _ _ _ hfind]
      have hR : opIncrement msToDate st
          (StoreOp.completeOp sid dur paused now) date subj = 0 := by
        simp only [opIncrement, hfind]
      rw [hL, hR]
      omega
    | some row =>
      have hL : statKeySum (applyOp msToDate st
            (StoreOp.completeOp sid dur paused now)).dailyStats date subj
          = statKeySum (updateDailyStat st.dailyStats st.subjectTotals
              (localDateString (msToDate row.startTime)) row.subjectName
              (StatIncrements.mk (Int.ofNat dur.toNat) 0 0)).1.1 date subj := by
        show statKeySum (completeSessionInStore st msToDate now sid dur
            paused).1.dailyStats date subj = _
        rw [completeSessionInStore_fst_of_some _ _ _ _ _ _ row hfind]
      have hR : opIncrement msToDate st
          (StoreOp.completeOp sid dur paused now) date subj
          = (if localDateString (msToDate row.startTime) = date
                ∧ normalizeSubject row.subjectName = subj
                ∧ ¬(localDateString (msToDate row.startTime) = "")
                ∧ ¬(normalizeSubject row.subjectName = "")
             then dur.toNat else 0) := by
        simp only [opIncrement, hfind]
      rw [hL, hR, statKeySum_updateDailyStat]
      by_cases hc : localDateString (msToDate row.startTime) = date
          ∧ normalizeSubject row.subjectName = subj
          ∧ ¬(localDateString (msToDate row.startTime) = "")
          ∧ ¬(normalizeSubject row.subjectName = "")
      · rw [if_pos hc, if_pos hc]
        rfl
      · rw [if_neg hc, if_neg hc]

lemma storeInv_applyOp (msToDate : Int → JsDate) (st : Store) (op : StoreOp)
    (h : StoreInv st) : StoreInv (applyOp msToDate st op) := by
  cases op with
  | startOp a b c d =>
    intro s2 hs2
    exact h s2 hs2
  | updateOp d s inc =>
    intro s2 hs2
    exact inv_parts_updateDailyStat st.dailyStats st.subjectTotals d s inc h
      s2 hs2
  | addOp stat =>
    intro s2 hs2
    exact inv_parts_addDailyStat st.dailyStats st.subjectTotals stat h s2 hs2
  | completeOp sid dur paused now =>
    cases hfind : st.sessions.find? (fun r => r.id == sid) with
    | none =>
      have hL : applyOp msToDate st (StoreOp.completeOp sid dur paused now)
          = st := by
        show (completeSessionInStore st msToDate now sid dur paused).1 = st
        rw [completeSessionInStore_of_none _ _ _ _ _ _ hfind]
      rw [hL]
      exact h
    | some row =>
      intro s2 hs2
      have hL : applyOp msToDate st (StoreOp.completeOp sid dur paused now)
          = Store.mk
              (updateDailyStat st.dailyStats st.subjectTotals
                (localDateString (msToDate row.startTime)) row.subjectName
                (StatIncrements.mk (Int.ofNat dur.toNat) 0 0)).1.2
              (updateDailyStat st.dailyStats st.subjectTotals
                (localDateString (msToDate row.startTime)) row.subjectName
                (StatIncrements.mk (Int.ofNat dur.toNat) 0 0)).1.1
              (updateFirst (fun r => r.id == sid)
                (fun _ => SessionRow.mk row.id row.subjectId row.subjectName
                  row.startTime (some now) (some dur.toNat)
                  (some paused.toNat)) st.sessions) :=
        completeSessionInStore_fst_of_some st msToDate now sid dur paused row
          hfind
      rw [hL]
      exact inv_parts_updateDailyStat st.dailyStats st.subjectTotals
        (localDateString (msToDate row.startTime)) row.subjectName
        (StatIncrements.mk (Int.ofNat dur.toNat) 0 0) h s2 hs2

lemma runOps_spec (msToDate : Int → JsDate) (ops : List StoreOp) (st : Store) :
    (∀ date subj,
      statKeySum (runOps msToDate st ops).dailyStats date subj
        = statKeySum st.dailyStats date subj
          + ledger msToDate st ops date subj)
    ∧ (StoreInv st → StoreInv (runOps msToDate st ops)) := by
  induction ops generalizing st with
  | nil =>
    refine ⟨fun date subj => ?_, fun hInv => hInv⟩
    unfold runOps ledger
    simp
  | cons op rest ih =>
    have hrun : runOps msToDate st (op :: rest)
        = runOps msToDate (applyOp msToDate st op) rest := rfl
    constructor
    · intro date subj
      rw [hrun, (ih (applyOp msToDate st op)).1 date subj,
        statKeySum_applyOp]
      have hled : ledger msToDate st (op :: rest) date subj
          = opIncrement msToDate st op date subj
            + ledger msToDate (applyOp msToDate st op) rest date subj := rfl
      rw [hled]
      omega
    · intro hInv
      rw [hrun]
      exact (ih (applyOp msToDate st op)).2 (storeInv_applyOp msToDate st op
        hInv)

/-- C5: as stated the claim is false.  addDailyStat pushes the daily-stat row
and persists it before syncing the subject total, and the sync throws on a
subject that normalizes to empty, so the totals aggregate goes out of sync
with the rows on a state reachable through the increment API: a single
addDailyStat with subject " " and timeInSubject 5 leaves a row summing to 5
for the empty key while the aggregate reports 0. -/
theorem dailyStat_totals_out_of_sync :
    statSubjectSum (runOps (fun _ => JsDate.mk 2025 0 1) emptyStore
        [StoreOp.addOp (DailyStatInput.mk "2025-01-01" " " 5 0 0)]).dailyStats
        "" = 5
    ∧ totalTimeFor (runOps (fun _ => JsDate.mk 2025 0 1) emptyStore
        [StoreOp.addOp
          (DailyStatInput.mk "2025-01-01" " " 5 0 0)]).subjectTotals
        "" = 0 := by
  decide

/-- C5 (amended): starting from the empty store, along any trace of session
starts, increment-API calls (updateDailyStat / addDailyStat) and session
completions, (a) for every (date, subject) key the accumulated timeInSubject
of that key's daily-stat rows equals the sum of all completed-session
durations plus all non-session increments ever actually applied for that key
(clamped as applied), and (b) for every subject with a nonempty name the
subject-total aggregate equals the sum of timeInSubject over that subject's
daily-stat rows; the aggregate for the empty-name key can go out of sync, as
the counterexample shows. -/
theorem dailyStats_increment_invariant (msToDate : Int → JsDate)
    (ops : List StoreOp) :
    (∀ date subj,
      statKeySum (runOps msToDate emptyStore ops).dailyStats date subj
        = ledger msToDate emptyStore ops date subj)
    ∧ (∀ subj, subj ≠ "" →
        totalTimeFor (runOps msToDate emptyStore ops).subjectTotals subj
          = statSubjectSum (runOps msToDate emptyStore ops).dailyStats
              subj) := by
  constructor
  · intro date subj
    have h := (runOps_spec msToDate ops emptyStore).1 date subj
    rw [h]
    have h0 : statKeySum emptyStore.dailyStats date subj = 0 := rfl
    rw [h0]
    omega
  · exact (runOps_spec msToDate ops emptyStore).2 (fun s2 h => rfl)

theorem dailyStats_increment_invariant_witness :
    (statKeySum (runOps (fun _ => JsDate.mk 2025 0 1) emptyStore
        [StoreOp.updateOp "2025-01-01" "Math"
          (StatIncrements.mk 30 0 0)]).dailyStats "2025-01-01" "math"
      = ledger (fun _ => JsDate.mk 2025 0 1) emptyStore
          [StoreOp.updateOp "2025-01-01" "Math" (StatIncrements.mk 30 0 0)]
          "2025-01-01" "math")
    ∧ totalTimeFor (runOps (fun _ => JsDate.mk 2025 0 1) emptyStore
        [StoreOp.updateOp "2025-01-01" "Math"
          (StatIncrements.mk 30 0 0)]).subjectTotals "math"
      = statSubjectSum (runOps (fun _ => JsDate.mk 2025 0 1) emptyStore
          [StoreOp.updateOp "2025-01-01" "Math"
            (StatIncrements.mk 30 0 0)]).dailyStats "math" :=
  And.intro
    ((dailyStats_increment_invariant (fun _ => JsDate.mk 2025 0 1)
      [StoreOp.updateOp "2025-01-01" "Math" (StatIncrements.mk 30 0 0)]).1
      "2025-01-01" "math")
    ((dailyStats_increment_invariant (fun _ => JsDate.mk 2025 0 1)
      [StoreOp.updateOp "2025-01-01" "Math" (StatIncrements.mk 30 0 0)]).2
      "math" (by decide))

lemma count_filter_eq_zero {α : Type} [DecidableEq α] (p : α → Bool)
    (l : List α) (a : α) (h : p a = false) : (l.filter p).count a = 0 := by
  rw [List.count_eq_zero]
  intro hmem
  have h2 := (List.mem_filter.mp hmem).2
  rw [h] at h2
  cases h2

lemma runTicks_absent (nows : List Int) :
    ∀ (list : List Reminder) (r : Reminder), list.count r = 0 →
      firedCount r (runTicks nows list).1 = 0
      ∧ (runTicks nows list).2.count r = 0 := by
  induction nows with
  | nil =>
    intro list r h
    exact ⟨rfl, h⟩
  | cons now rest ih =>
    intro list r h
    have hnotmem : r ∉ list := List.count_eq_zero.mp h
    have hdue : (dueReminders now list).count r = 0 := by
      rw [List.count_eq_zero]
      intro hmem
      exact hnotmem (List.mem_filter.mp hmem).1
    have hrem : (remainingReminders now list).count r = 0 := by
      rw [List.count_eq_zero]
      intro hmem
      exact hnotmem (List.mem_filter.mp hmem).1
    obtain ⟨h1, h2⟩ := ih (remainingReminders now list) r hrem
    refine ⟨?_, h2⟩
    show (dueReminders now list).count r
        + firedCount r (runTicks rest (remainingReminders now list)).1 = 0
    rw [hdue, h1]

lemma runTicks_once (nows : List Int) :
    ∀ (list : List Reminder) (r : Reminder), list.count r = 1 →
      (∃ n ∈ nows, r.timestamp ≤ n) →
      firedCount r (runTicks nows list).1 = 1
      ∧ (runTicks nows list).2.count r = 0 := by
  induction nows with
  | nil =>
    intro list r hone hdue
    obtain ⟨n, hn, _⟩ := hdue
    cases hn
  | cons now rest ih =>
    intro list r hone hdue
    by_cases hnow : r.timestamp ≤ now
    · have hf : (dueReminders now list).count r = 1 := by
        unfold dueReminders
        rw [List.count_filter (by simpa using hnow)]
        exact hone
      have hrem : (remainingReminders now list).count r = 0 :=
        count_filter_eq_zero _ _ _ (by simpa using hnow)
      obtain ⟨h1, h2⟩ := runTicks_absent rest (remainingReminders now list) r
        hrem
      refine ⟨?_, h2⟩
      show (dueReminders now list).count r
          + firedCount r (runTicks rest (remainingReminders now list)).1 = 1
      rw [hf, h1]
    · have hf : (dueReminders now list).count r = 0 :=
        count_filter_eq_zero _ _ _ (by simpa using hnow)
      have hrem : (remainingReminders now list).count r = 1 := by
        unfold remainingReminders
        rw [List.count_filter (by simp; omega)]
        exact hone
      obtain ⟨n, hn, hle⟩ := hdue
      rcases List.mem_cons.mp hn with rfl | hn2
      · exact absurd hle hnow
      · obtain ⟨h1, h2⟩ := ih (remainingReminders now list) r hrem
          ⟨n, hn2, hle⟩
        refine ⟨?_, h2⟩
        show (dueReminders now list).count r
            + firedCount r (runTicks rest (remainingReminders now list)).1 = 1
        rw [hf, h1]

lemma runTicks_fired_sorted (nows : List Int) :
    ∀ (list : List Reminder),
      List.Pairwise (fun a b : Reminder => a.timestamp ≤ b.timestamp) list →
      ∀ f ∈ (runTicks nows list).1,
        List.Pairwise (fun a b : Reminder => a.timestamp ≤ b.timestamp) f := by
  induction nows with
  | nil =>
    intro list hs f hf
    cases hf
  | cons now rest ih =>
    intro list hs f hf
    have hcons : (runTicks (now :: rest) list).1
        = dueReminders now list
            :: (runTicks rest (remainingReminders now list)).1 := rfl
    rw [hcons] at hf
    rcases List.mem_cons.mp hf with rfl | hf2
    · exact hs.filter _
    · exact ih (remainingReminders now list) (hs.filter _) f hf2

/-- C8: a reminder stored once whose timestamp is due at some poll tick is
fired by exactly one tick (the filter passes it to the notification loop
exactly once over the whole run), it is absent from the finally persisted
reminder set, and when the stored list is sorted by ascending timestamp (as
the add handler keeps it), every tick fires its due reminders in ascending
timestamp order, ties keeping insertion order. -/
theorem reminder_at_most_once (nows : List Int) (list : List Reminder)
    (r : Reminder) (hone : list.count r = 1)
    (hdue : ∃ n ∈ nows, r.timestamp ≤ n) :
    firedCount r (runTicks nows list).1 = 1
    ∧ (runTicks nows list).2.count r = 0
    ∧ (List.Pairwise (fun a b : Reminder => a.timestamp ≤ b.timestamp) list →
        ∀ f ∈ (runTicks nows list).1,
          List.Pairwise (fun a b : Reminder => a.timestamp ≤ b.timestamp) f) :=
  ⟨(runTicks_once nows list r hone hdue).1,
   (runTicks_once nows list r hone hdue).2,
   fun hs => runTicks_fired_sorted nows list hs⟩

theorem reminder_at_most_once_witness :
    firedCount (Reminder.mk "r1" "t" none 10)
        (runTicks [5, 20, 30] [Reminder.mk "r1" "t" none 10]).1 = 1
    ∧ (runTicks [5, 20, 30] [Reminder.mk "r1" "t" none 10]).2.count
        (Reminder.mk "r1" "t" none 10) = 0 :=
  And.intro
    (reminder_at_most_once [5, 20, 30] [Reminder.mk "r1" "t" none 10]
      (Reminder.mk "r1" "t" none 10) (by decide)
      ⟨20, by decide, by decide⟩).1
    (reminder_at_most_once [5, 20, 30] [Reminder.mk "r1" "t" none 10]
      (Reminder.mk "r1" "t" none 10) (by decide)
      ⟨20, by decide, by decide⟩).2.1

end Clarity
